import Mathlib

/-!
Verification of the rss-filter repository (filter_rss_v2.py and
filter_rss_v4.py).  The Python scripts are shallowly embedded: feedparser
entries become the `Entry` structure, the regex / substring keyword matching
is modelled character by character, the Gemini retry loop becomes an explicit
state machine driven by an oracle environment, and the lxml document
mutation becomes a pure function on an element-tree type.
-/

set_option maxRecDepth 20000

namespace RssFilter

/-- An RSS article entry as produced by feed parsing.  `title`, `summary`
and `link` model `entry.get('title','')`, `entry.get('summary','')` and
`entry.link` of a feedparser entry (missing fields default to the empty
string in the scripts). -/
structure Entry where
  title : String
  summary : String
  link : String
  deriving DecidableEq, Repr

/-- ASCII model of the regex word-character class `\w` that the `\b` anchors
of `find_and_highlight_keyword` (filter_rss_v4.py line 95) test against.
Python's `\w` is Unicode-aware; the keyword lists and the inputs considered
here are ASCII. -/
def isWordChar (c : Char) : Bool := c.isAlpha || c.isDigit || c = '_'

/-- Case-insensitive character comparison, modelling `re.IGNORECASE`. -/
def ciEq (a b : Char) : Bool := a.toLower = b.toLower

/-- `ciBegins pat txt` holds when `txt` starts with `pat` up to case. -/
def ciBegins : List Char → List Char → Bool
  | [], _ => true
  | _ :: _, [] => false
  | p :: ps, t :: ts => ciEq p t && ciBegins ps ts

/-- Whether the character at index `i` of `txt` is a word character;
out-of-range positions count as non-word, as beyond the ends of a regex
subject string. -/
def wordAt (txt : List Char) (i : Nat) : Bool := isWordChar (txt.getD i ' ')

/-- Regex word boundary `\b` between positions `p-1` and `p` of `txt`:
exactly one side is a word character. -/
def boundaryAt (txt : List Char) (p : Nat) : Bool :=
  match p with
  | 0 => wordAt txt 0
  | q + 1 => wordAt txt q != wordAt txt (q + 1)

/-- A whole-word, case-insensitive occurrence of `pat` at index `i`. -/
def wordMatchAt (pat txt : List Char) (i : Nat) : Bool :=
  ciBegins pat (txt.drop i) && boundaryAt txt i && boundaryAt txt (i + pat.length)

/-- Model of `re.search(r'\b' + re.escape(k) + r'\b', text, re.IGNORECASE)`
(filter_rss_v4.py lines 95 and 107). -/
def wordSearch (pat txt : String) : Bool :=
  (List.range (txt.data.length + 1)).any (fun i => wordMatchAt pat.data txt.data i)

/-- Where a keyword match was found, mirroring the "Title" / "Abstract"
strings returned by `find_and_highlight_keyword`. -/
inductive MatchLoc where
  | inTitle
  | inAbstract
  deriving DecidableEq, Repr

/-- Classification-relevant result of `find_and_highlight_keyword`
(filter_rss_v4.py lines 88-110): the first keyword of `keywords` matching
the title with word boundaries case-insensitively, otherwise the first
matching the summary, otherwise none.  The ANSI-highlighted title string the
Python function also returns feeds console logging only and never affects a
verdict, so it is not modelled. -/
def find_and_highlight_keyword (title summary : String) (keywords : List String) :
    Option (String × MatchLoc) :=
  match keywords.find? (fun k => wordSearch k title) with
  | some k => some (k, MatchLoc.inTitle)
  | none =>
    match keywords.find? (fun k => wordSearch k summary) with
    | some k => some (k, MatchLoc.inAbstract)
    | none => none

/-- Primary-filter verdict of one entry. -/
inductive KVerdict where
  | passed
  | removed
  | pending
  deriving DecidableEq, Repr

/-- One entry's primary-filter verdict in v4 (filter_rss_v4.py lines
155-174): the blacklist is checked first, then the whitelist, otherwise the
entry is deferred to the Gemini stage. -/
def keywordVerdictV4 (blacklist whitelist : List String) (e : Entry) : KVerdict :=
  match find_and_highlight_keyword e.title e.summary blacklist with
  | some _ => KVerdict.removed
  | none =>
    match find_and_highlight_keyword e.title e.summary whitelist with
    | some _ => KVerdict.passed
    | none => KVerdict.pending

/-- The v4 primary filtering loop (filter_rss_v4.py lines 154-174):
partitions the feed entries, in feed order, into
(keyword_passed_entries, keyword_removed_entries, gemini_pending_entries). -/
def classifyV4 (blacklist whitelist : List String) :
    List Entry → List Entry × List Entry × List Entry
  | [] => ([], [], [])
  | e :: es =>
    let r := classifyV4 blacklist whitelist es
    match keywordVerdictV4 blacklist whitelist e with
    | KVerdict.removed => (r.1, e :: r.2.1, r.2.2)
    | KVerdict.passed => (e :: r.1, r.2.1, r.2.2)
    | KVerdict.pending => (r.1, r.2.1, e :: r.2.2)

/-- `eqBegins pat txt` holds when `txt` starts with `pat` exactly. -/
def eqBegins : List Char → List Char → Bool
  | [], _ => true
  | _ :: _, [] => false
  | p :: ps, t :: ts => (p = t) && eqBegins ps ts

/-- Substring containment, modelling Python's `needle in hay` on strings. -/
def seqHasSub (needle hay : List Char) : Bool :=
  (List.range (hay.length + 1)).any (fun i => eqBegins needle (hay.drop i))

def lowerChars (s : String) : List Char := s.data.map Char.toLower

/-- The v2 match subject (filter_rss_v2.py lines 54-56):
`f"{title} {summary}"` built from the lowercased title and summary. -/
def contentV2 (e : Entry) : List Char :=
  lowerChars e.title ++ [' '] ++ lowerChars e.summary

/-- v2 keyword test: `w.lower() in content` (filter_rss_v2.py lines 58-59). -/
def substrHit (phrase : String) (e : Entry) : Bool :=
  seqHasSub (lowerChars phrase) (contentV2 e)


/-- The four v4 keyword lists (filter_rss_v4.py lines 49-54), verbatim. -/
def GENERAL_WHITELIST : List String := ["condensed matter", "solid state", "ARPES", "photoemission", "band structure", "Fermi surface", "Brillouin zone", "spin-orbit", "quantum oscillation", "quantum Hall", "Landau level", "topological", "topology", "Weyl", "Dirac", "Chern", "Berry phase", "Kondo", "Mott", "Hubbard", "Heisenberg model", "spin liquid", "spin ice", "skyrmion", "nematic", "stripe order", "charge density wave", "CDW", "spin density wave", "SDW", "magnetism", "magnetic order", "antiferromagnetic", "ferromagnetic", "superconductivity", "superconductor", "Meissner", "quasiparticle", "phonon", "magnon", "exciton", "polariton", "crystal field", "lattice", "moiré", "twisted bilayer", "graphene", "2D material", "van der Waals", "correlated electrons", "quantum critical", "metal-insulator", "quantum phase transition", "susceptibility", "neutron scattering", "x-ray diffraction", "STM", "STS", "Kagome", "photon"]
def GENERAL_BLACKLIST : List String := ["congress", "forest", "climate", "lava", "protein", "archeologist", "mummy", "cancer", "tumor", "immune", "immunology", "inflammation", "antibody", "cytokine", "gene", "tissue", "genome", "genetic", "transcriptome", "rna", "mrna", "mirna", "crisper", "mutation", "cell", "mouse", "zebrafish", "neuron", "neural", "brain", "synapse", "microbiome", "gut", "pathogen", "bacteria", "virus", "viral", "infection", "epidemiology", "clinical", "therapy", "therapeutic", "disease", "patient", "biopsy", "in vivo", "in vitro", "drug", "pharmacology", "oncology"]
def ARXIV_PRB_WHITELIST : List String := ["ARPES", "angle-resolved", "Berry phase", "Kondo", "Mott", "Hubbard", "moiré", "twisted", "graphene", "Kagome", "CsV3Sb5", "V3Sb5", "Ti3Sb5", "magneto", "Luttinger", "NbSe3", "TaSe3", "Spin-charge", "Spin charge separation", "altermagnet", "CD-ARPES", "Circular dichroic", "Circular dichroism", "Quantum geometry", "Quantum geometric"]
def ARXIV_PRB_BLACKLIST : List String := ["cancer"]

/-- The v2 keyword lists (filter_rss_v2.py lines 19-20), verbatim. -/
def WHITELIST : List String := ["condensed matter", "solid state", "ARPES", "photoemission", "band structure", "Fermi surface", "Brillouin zone", "spin-orbit", "quantum oscillation", "quantum Hall", "Landau level", "topological", "topology", "Weyl", "Dirac", "Chern", "Berry phase", "Kondo", "Mott", "Hubbard", "Heisenberg model", "Ising", "spin liquid", "spin ice", "skyrmion", "nematic", "stripe order", "charge density wave", "CDW", "spin density wave", "SDW", "magnetism", "magnetic order", "antiferromagnetic", "ferromagnetic", "superconductivity", "superconductor", "Meissner", "vortex", "quasiparticle", "phonon", "magnon", "exciton", "polariton", "crystal field", "lattice", "strain", "valley", "moiré", "twisted bilayer", "graphene", "2D material", "van der Waals", "thin film", "interface", "correlated electrons", "quantum critical", "metal-insulator", "quantum phase transition", "resistivity", "transport", "susceptibility", "neutron scattering", "x-ray diffraction", "STM", "STS", "Kagome"]
def BLACKLIST : List String := ["cancer", "tumor", "immune", "immunology", "inflammation", "antibody", "cytokine", "gene expression", "genome", "genetic", "transcriptome", "rna", "mrna", "mirna", "crisper", "mutation", "cell line", "mouse model", "zebrafish", "neuron", "neural", "brain", "synapse", "microbiome", "gut", "pathogen", "bacteria", "virus", "viral", "infection", "epidemiology", "clinical", "therapy", "therapeutic", "disease", "patient", "biopsy", "in vivo", "in vitro", "drug", "pharmacology", "oncology"]

/-- One entry's primary-filter verdict in v2 (filter_rss_v2.py lines 53-68):
the whitelist test is made first (`if is_in_whitelist ... elif
is_in_blacklist`), otherwise the entry is deferred to the Gemini stage. -/
def keywordVerdictV2 (e : Entry) : KVerdict :=
  if WHITELIST.any (fun w => substrHit w e) then KVerdict.passed
  else if BLACKLIST.any (fun b => substrHit b e) then KVerdict.removed
  else KVerdict.pending

/-- Python-set model: the link sets `passed_links` and `removed_links` of
v2, as duplicate-free lists with membership semantics. -/
structure LinkSets where
  passed : List String
  removed : List String
  deriving DecidableEq, Repr

/-- `set.add`: insert a link if not already present. -/
def addLink (s : List String) (l : String) : List String :=
  if s.contains l then s else s ++ [l]

/-- The v2 primary filtering loop (filter_rss_v2.py lines 49-68): link sets
for the keyword-decided entries plus the pending entries in feed order. -/
def keywordStageV2 : List Entry → LinkSets × List Entry
  | [] => (⟨[], []⟩, [])
  | e :: es =>
    let r := keywordStageV2 es
    match keywordVerdictV2 e with
    | KVerdict.passed => (⟨addLink r.1.passed e.link, r.1.removed⟩, r.2)
    | KVerdict.removed => (⟨r.1.passed, addLink r.1.removed e.link⟩, r.2)
    | KVerdict.pending => (r.1, e :: r.2)

/-- The Gemini model identity held by the scripts. -/
inductive GeminiModelId where
  | primary
  | fallback
  deriving DecidableEq, Repr

/-- One element of a decoded oracle response list.  `obj t d` is a JSON
object whose "title" / "decision" values are modelled as present strings or
missing (`decision_item.get(...)` defaults to `''`); `nonDict` is a list
element that is not an object, which makes the processing loop raise
(TypeError in v4 line 211, AttributeError in v2 line 101). -/
inductive DecisionItem where
  | obj (title : Option String) (decision : Option String)
  | nonDict
  deriving DecidableEq, Repr

/-- Externally observable outcome of one oracle call attempt: a decoded
list, a decoded non-list (v4 line 206 raises TypeError), an explicit
`ResourceExhausted` quota signal, or any other exception (network error,
undecodable body, attribute errors, ...). -/
inductive AttemptOutcome where
  | ok (ds : List DecisionItem)
  | notList
  | quotaError
  | otherError
  deriving DecidableEq, Repr

/-- The external world driving one Gemini session: the outcome of attempt
`i` made with model `m`, and whether constructing the fallback
`GenerativeModel` succeeds (v4 lines 231-238). -/
structure OracleEnv where
  outcome : Nat → GeminiModelId → AttemptOutcome
  fallbackOk : Bool

/-- The v4 globals `current_model` / `using_primary_model` (lines 73-74 and
118): `model = none` means no configured client (missing API key, or a
failed fallback construction set `current_model = None`). -/
structure SessionState where
  model : Option GeminiModelId
  usingPrimary : Bool
  deriving DecidableEq, Repr

/-- The v4 lists `gemini_passed_entries` / `gemini_removed_entries`. -/
structure GeminiLists where
  passed : List Entry
  removed : List Entry
  deriving DecidableEq, Repr

/-- Character-wise uppercase, modelling the Python `str.upper()` applied to
the decision field (the decisions considered are ASCII). -/
def upperStr (s : String) : String := String.mk (s.data.map Char.toUpper)

/-- Whether a decoded response list contains a non-object element. -/
def hasNonDict : List DecisionItem → Bool
  | [] => false
  | DecisionItem.nonDict :: _ => true
  | DecisionItem.obj _ _ :: rest => hasNonDict rest

/-- The v4 response-processing loop (filter_rss_v4.py lines 209-223).  Each
object resolves to a pending entry by exact title equality with
`next((e for e in gemini_pending_entries if e.get('title','') == title),
None)`; a resolved entry is appended to the passed list when the uppercased
decision equals "YES" and to the removed list otherwise; an unresolved title
falls through the `if original_entry:` test.  The returned flag is false
when a `nonDict` element raised mid-loop: the appends made before the raise
are kept, since the Python lists are mutated in place. -/
def processDecisions (pending : List Entry) :
    List DecisionItem → GeminiLists → GeminiLists × Bool
  | [], acc => (acc, true)
  | DecisionItem.nonDict :: _, acc => (acc, false)
  | DecisionItem.obj t d :: rest, acc =>
    let title := t.getD ""
    let decision := upperStr (d.getD "")
    match pending.find? (fun e => e.title == title) with
    | some e =>
      if decision == "YES" then
        processDecisions pending rest ⟨acc.passed ++ [e], acc.removed⟩
      else
        processDecisions pending rest ⟨acc.passed, acc.removed ++ [e]⟩
    | none => processDecisions pending rest acc

/-- Local state of the v4 retry loop (lines 189-243): the global session,
`max_attempts`, `attempt`, the gemini lists and `api_success`. -/
structure LoopState where
  sess : SessionState
  maxAttempts : Nat
  attempt : Nat
  lists : GeminiLists
  apiSuccess : Bool
  deriving DecidableEq, Repr

/-- One iteration of the v4 retry-loop body (lines 193-243).  With no model
the attempt raises AttributeError at line 195 before any call (caught as a
generic failure, never a quota signal).  A quota error while still on the
primary switches to the fallback, clears `using_primary_model` and grants
one extra attempt; if constructing the fallback model itself raises,
`current_model` becomes `None` and neither flag nor budget changes.  Every
failing branch ends with `attempt += 1`. -/
def attemptOnce (env : OracleEnv) (pending : List Entry) (s : LoopState) : LoopState :=
  match s.sess.model with
  | none => { s with attempt := s.attempt + 1 }
  | some m =>
    match env.outcome s.attempt m with
    | AttemptOutcome.ok ds =>
      let pr := processDecisions pending ds s.lists
      if pr.2 then { s with lists := pr.1, apiSuccess := true }
      else { s with lists := pr.1, attempt := s.attempt + 1 }
    | AttemptOutcome.notList => { s with attempt := s.attempt + 1 }
    | AttemptOutcome.otherError => { s with attempt := s.attempt + 1 }
    | AttemptOutcome.quotaError =>
      if s.sess.usingPrimary then
        if env.fallbackOk then
          { s with sess := ⟨some GeminiModelId.fallback, false⟩,
                   maxAttempts := s.maxAttempts + 1,
                   attempt := s.attempt + 1 }
        else
          { s with sess := ⟨none, s.sess.usingPrimary⟩, attempt := s.attempt + 1 }
      else { s with attempt := s.attempt + 1 }

/-- The v4 `while attempt < max_attempts and not api_success` loop, with
explicit fuel.  Fuel 5 dominates every run: `maxAttempts` never exceeds 4,
so at most four iterations execute (`runLoop_exits` below proves that the
state returned with fuel 5 satisfies the loop exit condition). -/
def runLoop (env : OracleEnv) (pending : List Entry) : Nat → LoopState → LoopState
  | 0, s => s
  | fuel + 1, s =>
    if s.attempt < s.maxAttempts && !s.apiSuccess then
      runLoop env pending fuel (attemptOnce env pending s)
    else s

/-- Loop entry state: `max_attempts = 3`, `attempt = 0`, empty lists. -/
def initLoopState (sess : SessionState) : LoopState :=
  ⟨sess, 3, 0, ⟨[], []⟩, false⟩

/-- Result of the v4 Gemini stage: the final gemini lists, whether the
RuntimeError of line 248 was raised, and the session globals afterwards. -/
structure StageOut where
  lists : GeminiLists
  raised : Bool
  sess : SessionState

/-- The v4 Gemini stage (lines 177-248).  It runs only when a model is
configured and there are pending entries; on exhaustion every pending entry
is appended to `gemini_removed_entries` (line 247) and the RuntimeError of
line 248 is raised. -/
def geminiStageV4 (env : OracleEnv) (sess : SessionState) (pending : List Entry) :
    StageOut :=
  if sess.model.isSome && !pending.isEmpty then
    let f := runLoop env pending 5 (initLoopState sess)
    if f.apiSuccess then ⟨f.lists, false, f.sess⟩
    else ⟨⟨f.lists.passed, f.lists.removed ++ pending⟩, true, f.sess⟩
  else ⟨⟨[], []⟩, false, sess⟩

/-- The v2 response-processing loop (filter_rss_v2.py lines 100-111): the
same resolution logic as v4 but recording links in the two sets. -/
def processDecisionsV2 (pending : List Entry) :
    List DecisionItem → LinkSets → LinkSets × Bool
  | [], acc => (acc, true)
  | DecisionItem.nonDict :: _, acc => (acc, false)
  | DecisionItem.obj t d :: rest, acc =>
    let title := t.getD ""
    let decision := upperStr (d.getD "")
    match pending.find? (fun e => e.title == title) with
    | some e =>
      if decision == "YES" then
        processDecisionsV2 pending rest ⟨addLink acc.passed e.link, acc.removed⟩
      else
        processDecisionsV2 pending rest ⟨acc.passed, addLink acc.removed e.link⟩
    | none => processDecisionsV2 pending rest acc

/-- The v2 retry loop `for i in range(3)` (lines 89-117): fixed budget of
three attempts, no model switching, break on success.  A non-list decoded
response is a caught failure here too (iterating it or calling `.get` on
its elements raises). -/
def geminiTriesV2 (env : Nat → AttemptOutcome) (pending : List Entry) :
    Nat → Nat → LinkSets → LinkSets × Bool
  | 0, _, acc => (acc, false)
  | fuel + 1, i, acc =>
    match env i with
    | AttemptOutcome.ok ds =>
      let pr := processDecisionsV2 pending ds acc
      if pr.2 then (pr.1, true) else geminiTriesV2 env pending fuel (i + 1) pr.1
    | _ => geminiTriesV2 env pending fuel (i + 1) acc

/-- The v2 Gemini stage (lines 71-121).  On exhaustion it executes
`removed_links.update(entry.link for entry in gemini_pending_entries)`
(line 121) and CONTINUES NORMALLY: no exception is raised on this path. -/
def geminiStageV2 (env : Nat → AttemptOutcome) (modelConfigured : Bool)
    (pending : List Entry) (sets : LinkSets) : LinkSets :=
  if modelConfigured && !pending.isEmpty then
    let r := geminiTriesV2 env pending 3 0 sets
    if r.2 then r.1
    else ⟨r.1.passed, pending.foldl (fun s e => addLink s e.link) r.1.removed⟩
  else sets

/-- Element-tree model of the lxml documents: qualified tag in Clark
notation, attribute list, optional text, ordered children.  Whitespace-only
text nodes and the serialization layer (`tree.write` with a UTF-8
declaration and pretty-printing) are cosmetic and carry no filtering
content, so documents are compared as trees. -/
inductive XmlTree where
  | elem (tag : String) (attrs : List (String × String)) (text : Option String)
      (children : List XmlTree)

def XmlTree.tag : XmlTree → String
  | XmlTree.elem t _ _ _ => t

def XmlTree.attrs : XmlTree → List (String × String)
  | XmlTree.elem _ a _ _ => a

def XmlTree.text : XmlTree → Option String
  | XmlTree.elem _ _ x _ => x

def XmlTree.children : XmlTree → List XmlTree
  | XmlTree.elem _ _ _ cs => cs

/-- Replace the child list, keeping tag, attributes and text: the effect of
in-place removal of children on an lxml element. -/
def XmlTree.withChildren : XmlTree → List XmlTree → XmlTree
  | XmlTree.elem t a x _, cs => XmlTree.elem t a x cs

/-- `element.get(name)`: attribute lookup. -/
def XmlTree.attr (t : XmlTree) (name : String) : Option String :=
  (t.attrs.find? (fun p => p.1 == name)).map Prod.snd

/-- `element.find(tag)`: the first child with the given tag. -/
def firstWithTag (tg : String) (l : List XmlTree) : Option XmlTree :=
  l.find? (fun c => c.tag == tg)

/-- Apply `f` to the first child with tag `tg`, leaving the rest alone:
the effect of mutating the element returned by `find`. -/
def applyFirst (tg : String) (f : XmlTree → XmlTree) : List XmlTree → List XmlTree
  | [] => []
  | c :: cs => if c.tag = tg then f c :: cs else c :: applyFirst tg f cs

/-- Clark notation `{namespace}localname` used by lxml for qualified tags. -/
def clark (ns loc : String) : String := "\x7b" ++ ns ++ "\x7d" ++ loc

def atomNS : String := "http://www.w3.org/2005/Atom"
def rdfNS : String := "http://www.w3.org/1999/02/22-rdf-syntax-ns#"
def rss1NS : String := "http://purl.org/rss/1.0/"
def atomFeedTag : String := clark atomNS "feed"
def atomEntryTag : String := clark atomNS "entry"
def atomLinkTag : String := clark atomNS "link"
def rdfRootTag : String := clark rdfNS "RDF"
def rdfSeqTag : String := clark rdfNS "Seq"
def rdfLiTag : String := clark rdfNS "li"
def rdfAboutAttr : String := clark rdfNS "about"
def rdfResourceAttr : String := clark rdfNS "resource"
def rss1ItemTag : String := clark rss1NS "item"
def rss1ChannelTag : String := clark rss1NS "channel"
def rss1ItemsTag : String := clark rss1NS "items"

/-- rss item removal test (v4 lines 271-274 / v2 lines 139-142):
`link_el is not None and link_el.text not in passed_links`.  A present
`link` element whose text is None is removed, because
`None not in passed_links` is True. -/
def rssItemRemoved (passed : List String) (item : XmlTree) : Bool :=
  match firstWithTag "link" item.children with
  | none => false
  | some le =>
    match le.text with
    | none => true
    | some t => !(passed.contains t)

/-- Atom entry removal test (v4 lines 276-281 / v2 lines 144-149): the href
is explicitly checked for None, so an entry with no href is kept. -/
def atomEntryRemoved (passed : List String) (en : XmlTree) : Bool :=
  match firstWithTag atomLinkTag en.children with
  | none => false
  | some le =>
    match le.attr "href" with
    | none => false
    | some h => !(passed.contains h)

/-- RDF item removal test (v4 lines 283-286 / v2 lines 151-154): the
`rdf:about` attribute is checked for None, so an item without it is kept. -/
def rdfItemRemoved (passed : List String) (item : XmlTree) : Bool :=
  match item.attr rdfAboutAttr with
  | none => false
  | some a => !(passed.contains a)

/-- v4 `li` removal test (lines 294-297): removed when the resource is not
in `passed_links`; a missing resource attribute satisfies
`None not in passed_links` and is removed. -/
def liRemovedV4 (passed : List String) (li : XmlTree) : Bool :=
  match li.attr rdfResourceAttr with
  | none => true
  | some r => !(passed.contains r)

/-- v2 `li` removal test (lines 161-164): removed only when the resource is
in `removed_links`; a missing resource is kept (`None in removed_links` is
False). -/
def liRemovedV2 (removed : List String) (li : XmlTree) : Bool :=
  match li.attr rdfResourceAttr with
  | none => false
  | some r => removed.contains r

/-- Remove from an `rdf:Seq` node the `rdf:li` children satisfying the
removal condition. -/
def seqFilter (liCond : XmlTree → Bool) (sq : XmlTree) : XmlTree :=
  sq.withChildren (sq.children.filter (fun c => !(c.tag == rdfLiTag && liCond c)))

/-- For one `rss1:channel`: mutate its first `rss1:items` child's first
`rdf:Seq` child (v4 lines 288-297 / v2 lines 156-164). -/
def channelSeqUpdate (liCond : XmlTree → Bool) (ch : XmlTree) : XmlTree :=
  ch.withChildren (applyFirst rss1ItemsTag
    (fun its => its.withChildren (applyFirst rdfSeqTag (seqFilter liCond) its.children))
    ch.children)

/-- The RDF dialect branch: remove top-level `rss1:item` children matching
`itemCond`, then update the Seq list of every `rss1:channel` child. -/
def rdfFilter (itemCond liCond : XmlTree → Bool) (root : XmlTree) : XmlTree :=
  let k1 := root.children.filter (fun c => !(c.tag == rss1ItemTag && itemCond c))
  root.withChildren (k1.map (fun c =>
    if c.tag = rss1ChannelTag then channelSeqUpdate liCond c else c))

/-- The plain-RSS branch (shared verbatim by v2 and v4): the first `channel`
child has its non-passing `item` children removed. -/
def rssFilter (passed : List String) (root : XmlTree) : XmlTree :=
  root.withChildren (applyFirst "channel"
    (fun ch => ch.withChildren (ch.children.filter
      (fun c => !(c.tag == "item" && rssItemRemoved passed c))))
    root.children)

/-- The Atom branch (shared verbatim by v2 and v4): non-passing
`atom:entry` children of the root are removed. -/
def atomFilter (passed : List String) (root : XmlTree) : XmlTree :=
  root.withChildren (root.children.filter
    (fun c => !(c.tag == atomEntryTag && atomEntryRemoved passed c)))

/-- The v4 Feed Filter (filter_rss_v4.py lines 267-299): dialect dispatch on
the root tag; an unrecognized root only triggers the warning of line 299 and
the document is left unchanged. -/
def feedFilterV4 (passed : List String) (root : XmlTree) : XmlTree :=
  if root.tag = "rss" then rssFilter passed root
  else if root.tag = atomFeedTag then atomFilter passed root
  else if root.tag = rdfRootTag then
    rdfFilter (rdfItemRemoved passed) (liRemovedV4 passed) root
  else root

/-- The v2 Feed Filter (filter_rss_v2.py lines 136-166): identical to v4
except that the RDF `li` list is pruned by membership in `removed_links`
instead of absence from `passed_links`. -/
def feedFilterV2 (passed removed : List String) (root : XmlTree) : XmlTree :=
  if root.tag = "rss" then rssFilter passed root
  else if root.tag = atomFeedTag then atomFilter passed root
  else if root.tag = rdfRootTag then
    rdfFilter (rdfItemRemoved passed) (liRemovedV2 removed) root
  else root

/-- The `item` children of the first `channel` of a plain-RSS document. -/
def rssItemsOf (root : XmlTree) : List XmlTree :=
  match firstWithTag "channel" root.children with
  | none => []
  | some ch => ch.children.filter (fun c => c.tag == "item")

/-- The top-level `rss1:item` children of an RDF document. -/
def rdfItemsOf (root : XmlTree) : List XmlTree :=
  root.children.filter (fun c => c.tag == rss1ItemTag)

/-- The `rdf:li` children of the first Seq of the first items list of one
channel: the portion of the manifest the scripts prune. -/
def channelLis (ch : XmlTree) : List XmlTree :=
  match firstWithTag rss1ItemsTag ch.children with
  | none => []
  | some its =>
    match firstWithTag rdfSeqTag its.children with
    | none => []
    | some sq => sq.children.filter (fun c => c.tag == rdfLiTag)

/-- All pruned-manifest `rdf:li` nodes of an RDF document, channel by
channel. -/
def seqLisOf (root : XmlTree) : List XmlTree :=
  (root.children.filter (fun c => c.tag == rss1ChannelTag)).flatMap channelLis

/-- Ruleset selection of filter_rss_v4.py lines 127-129: the strict journals
(PRL_Recent, PRB_Recent, arXiv_CondMat) use the ARXIV_PRB lists. -/
def v4Blacklist (strictRules : Bool) : List String :=
  if strictRules then ARXIV_PRB_BLACKLIST else GENERAL_BLACKLIST

/-- Ruleset selection, inclusion side (filter_rss_v4.py lines 128/138). -/
def v4Whitelist (strictRules : Bool) : List String :=
  if strictRules then ARXIV_PRB_WHITELIST else GENERAL_WHITELIST

/-- Return value of the v4 per-journal pipeline on the normal path
(line 304). -/
structure JournalOut where
  doc : XmlTree
  keywordPassed : List Entry
  geminiPassed : List Entry
  keywordRemoved : List Entry
  geminiRemoved : List Entry

/-- Outcome of `filter_rss_for_journal`: a normal return, or the
RuntimeError raise of line 248.  The `raisedErr` constructor carries the
local gemini lists at raise time so their final content can be specified. -/
inductive V4Result where
  | normal (out : JournalOut)
  | raisedErr (lists : GeminiLists)

/-- The v4 per-journal pipeline `filter_rss_for_journal` (lines 113-304):
keyword classification, the Gemini stage, then the Feed Filter keyed by
`passed_links = set(e.link for e in keyword_passed + gemini_passed)`.
`strictRules` selects the ARXIV_PRB lists (line 127).  The fetched raw
bytes, prompt text and console output are external I/O and carry no
classification content. -/
def filterRssForJournal (env : OracleEnv) (sess : SessionState)
    (strictRules : Bool) (entries : List Entry) (doc : XmlTree) :
    V4Result × SessionState :=
  let c := classifyV4 (v4Blacklist strictRules) (v4Whitelist strictRules) entries
  let st := geminiStageV4 env sess c.2.2
  if st.raised then (V4Result.raisedErr st.lists, st.sess)
  else
    let passedLinks := (c.1 ++ st.lists.passed).map Entry.link
    (V4Result.normal ⟨feedFilterV4 passedLinks doc, c.1, st.lists.passed,
      c.2.1, st.lists.removed⟩, st.sess)

/-- Outcome of the v2 `filter_rss`.  In the fragment modelled here every
path returns normally: the oracle-exhaustion branch (lines 119-121) only
marks links removed; `raisedErr` would model a re-raise from the outer
`except` (line 175), which no modelled path reaches. -/
inductive V2Result where
  | normal (doc : XmlTree) (links : LinkSets)
  | raisedErr (msg : String)

/-- The v2 whole-pipeline `filter_rss` (filter_rss_v2.py lines 36-171). -/
def filterRssV2 (env : Nat → AttemptOutcome) (modelConfigured : Bool)
    (entries : List Entry) (doc : XmlTree) : V2Result :=
  let k := keywordStageV2 entries
  let sets := geminiStageV2 env modelConfigured k.2 k.1
  V2Result.normal (feedFilterV2 sets.passed sets.removed doc) sets

/-- One journal of the v4 main loop: its ruleset flag, parsed entries,
parsed document and the oracle behaviour for its batch call. -/
structure JournalJob where
  strictRules : Bool
  entries : List Entry
  doc : XmlTree
  env : OracleEnv

/-- The v4 main loop (lines 512-556): journals processed in order with the
run-scoped session globals; the first raise is re-raised (line 556) and
aborts the loop. -/
def runJournals : List JournalJob → SessionState → List V4Result × SessionState
  | [], sess => ([], sess)
  | j :: js, sess =>
    let r := filterRssForJournal j.env sess j.strictRules j.entries j.doc
    match r.1 with
    | V4Result.raisedErr l => ([V4Result.raisedErr l], r.2)
    | V4Result.normal o =>
      let rest := runJournals js r.2
      (V4Result.normal o :: rest.1, rest.2)

/-- Occurrence count of an entry in a list (partition bookkeeping). -/
def countOcc (e : Entry) : List Entry → Nat
  | [] => 0
  | x :: xs => (if x = e then 1 else 0) + countOcc e xs

/-- Total number of verdicts an entry received: its occurrences across the
four classified-entry lists returned by the per-journal pipeline. -/
def countFour (e : Entry) (o : JournalOut) : Nat :=
  countOcc e o.keywordPassed + countOcc e o.geminiPassed +
    countOcc e o.keywordRemoved + countOcc e o.geminiRemoved

/-- An attempt that raises rather than classifying: any outcome other than
a decoded list, or a decoded list containing a non-object element (the
processing loop then raises mid-way). -/
def attemptFails : AttemptOutcome → Bool
  | AttemptOutcome.ok ds => hasNonDict ds
  | _ => true

/-! Concrete sample data used by witnesses and counterexamples. -/

/-- An entry whose text contains both an inclusion phrase ("lattice") and an
exclusion phrase ("cancer") of the v2 lists. -/
def eBoth : Entry := ⟨"lattice defects in cancer cells", "", "http://cx/1"⟩

/-- An entry matching only the exclusion lists ("tumor"). -/
def eTumor : Entry := ⟨"tumor growth", "", "http://w/a"⟩

/-- An entry matching only the v2 inclusion list ("lattice"). -/
def eLattice : Entry := ⟨"lattice research", "", "http://w/b"⟩

/-- An entry matching no keyword of any list: it is UNDECIDED in every
variant. -/
def ePend : Entry := ⟨"zzz", "zzz", "http://e/p"⟩

/-- An entry matching the GENERAL inclusion list ("superconductor"). -/
def eSuper : Entry := ⟨"superconductor found", "", "http://e/a"⟩

/-- A document with an unrecognized root element. -/
def docX : XmlTree := XmlTree.elem "x" [] none []

/-- An oracle environment whose every attempt raises a non-quota error. -/
def envFail : OracleEnv := ⟨fun _ _ => AttemptOutcome.otherError, true⟩

/-- An oracle environment whose every attempt raises a quota error. -/
def envQuota : OracleEnv := ⟨fun _ _ => AttemptOutcome.quotaError, true⟩

/-- An oracle environment whose first attempt succeeds with an empty
decision list. -/
def envEmptyOk : OracleEnv := ⟨fun _ _ => AttemptOutcome.ok [], true⟩

/-! Generic list bookkeeping lemmas. -/

theorem countOcc_append (e : Entry) (l1 l2 : List Entry) :
    countOcc e (l1 ++ l2) = countOcc e l1 + countOcc e l2 := by
  induction l1 with
  | nil => simp [countOcc]
  | cons x xs ih => simp [countOcc, ih]; omega

theorem countOcc_filter_split (e : Entry) (p : Entry → Bool) :
    ∀ l : List Entry,
      countOcc e (l.filter p) + countOcc e (l.filter fun x => !(p x)) =
        countOcc e l := by
  intro l
  induction l with
  | nil => simp [countOcc]
  | cons x xs ih =>
    cases hp : p x <;> simp [List.filter_cons, hp, countOcc] <;> omega

/-- The v4 keyword stage is a partition: each entry occurrence lands in
exactly one of the three output lists. -/
theorem classifyV4_count (bl wl : List String) (e : Entry) :
    ∀ es : List Entry,
      countOcc e (classifyV4 bl wl es).1 + countOcc e (classifyV4 bl wl es).2.1 +
        countOcc e (classifyV4 bl wl es).2.2 = countOcc e es := by
  intro es
  induction es with
  | nil => simp [classifyV4, countOcc]
  | cons x xs ih =>
    cases hv : keywordVerdictV4 bl wl x <;>
      simp [classifyV4, hv, countOcc] <;> omega

/-- Membership in a keyword-stage output list determines the verdict. -/
theorem classifyV4_mem (bl wl : List String) :
    ∀ (es : List Entry) (e : Entry),
      (e ∈ (classifyV4 bl wl es).1 → keywordVerdictV4 bl wl e = KVerdict.passed) ∧
      (e ∈ (classifyV4 bl wl es).2.1 → keywordVerdictV4 bl wl e = KVerdict.removed) ∧
      (e ∈ (classifyV4 bl wl es).2.2 → keywordVerdictV4 bl wl e = KVerdict.pending) := by
  intro es
  induction es with
  | nil => intro e; simp [classifyV4]
  | cons x xs ih =>
    intro e
    obtain ⟨h1, h2, h3⟩ := ih e
    cases hv : keywordVerdictV4 bl wl x with
    | passed =>
      simp only [classifyV4, hv, List.mem_cons]
      refine ⟨?_, h2, h3⟩
      rintro (rfl | h)
      · exact hv
      · exact h1 h
    | removed =>
      simp only [classifyV4, hv, List.mem_cons]
      refine ⟨h1, ?_, h3⟩
      rintro (rfl | h)
      · exact hv
      · exact h2 h
    | pending =>
      simp only [classifyV4, hv, List.mem_cons]
      refine ⟨h1, h2, ?_⟩
      rintro (rfl | h)
      · exact hv
      · exact h3 h

/-- C1 (amended).  In v4 the exclusion check runs first: any entry whose
title or summary matches an exclusion phrase is REJECTed by the keyword
stage, regardless of the inclusion list.  In v2 the INCLUSION check runs
first (`if is_in_whitelist ... elif is_in_blacklist`, filter_rss_v2.py lines
61-66): any entry matching an inclusion phrase is PASSed, regardless of the
exclusion list, so an entry matching both lists is PASSed there. -/
theorem c1_exclusion_priority :
    (∀ (bl wl : List String) (e : Entry) (r : String × MatchLoc),
      find_and_highlight_keyword e.title e.summary bl = some r →
      keywordVerdictV4 bl wl e = KVerdict.removed) ∧
    (∀ e : Entry, WHITELIST.any (fun w => substrHit w e) = true →
      keywordVerdictV2 e = KVerdict.passed) := by
  constructor
  · intro bl wl e r h
    unfold keywordVerdictV4
    rw [h]
  · intro e h
    unfold keywordVerdictV2
    rw [if_pos h]

/-- C1 counterexample: the entry "lattice defects in cancer cells" matches
both the v2 inclusion list ("lattice") and the v2 exclusion list ("cancer"),
yet the v2 Keyword Classifier PASSes it, contradicting the claim that the
exclusion check runs before the inclusion check in every supported variant
and that such an entry is always REJECTed. -/
theorem c1_counterexample :
    WHITELIST.any (fun w => substrHit w eBoth) = true ∧
    BLACKLIST.any (fun b => substrHit b eBoth) = true ∧
    keywordVerdictV2 eBoth = KVerdict.passed := by
  refine ⟨by decide, by decide, by decide⟩

/-- Witness for `c1_exclusion_priority` at concrete entries. -/
theorem c1_witness :
    keywordVerdictV4 GENERAL_BLACKLIST GENERAL_WHITELIST eTumor = KVerdict.removed ∧
    keywordVerdictV2 eLattice = KVerdict.passed := by
  constructor
  · exact c1_exclusion_priority.1 GENERAL_BLACKLIST GENERAL_WHITELIST eTumor
      ("tumor", MatchLoc.inTitle) (by decide)
  · exact c1_exclusion_priority.2 eLattice (by decide)

/-- The response-processing loop reports failure exactly when the decoded
list contains a non-object element. -/
theorem processDecisions_flag (pending : List Entry) :
    ∀ (ds : List DecisionItem) (acc : GeminiLists),
      (processDecisions pending ds acc).2 = !hasNonDict ds := by
  intro ds
  induction ds with
  | nil => intro acc; simp [processDecisions, hasNonDict]
  | cons d rest ih =>
    intro acc
    cases d with
    | nonDict => simp [processDecisions, hasNonDict]
    | obj t dec =>
      simp only [processDecisions, hasNonDict]
      cases pending.find? (fun e => e.title == (t.getD "")) with
      | none => exact ih acc
      | some e =>
        by_cases hy : (upperStr (dec.getD "") == "YES") = true <;>
          simp [hy, ih]

/-- When the pending titles are distinct, title lookup resolves each
pending entry to itself. -/
theorem find_title_self :
    ∀ pend : List Entry, (pend.map Entry.title).Nodup →
      ∀ e ∈ pend, pend.find? (fun x => x.title == e.title) = some e := by
  intro pend
  induction pend with
  | nil => intro _ e he; cases he
  | cons h t ih =>
    intro hnd e he
    rw [List.map_cons, List.nodup_cons] at hnd
    rcases List.mem_cons.1 he with rfl | hmem
    · simp [List.find?_cons]
    · have hne : (h.title == e.title) = false := by
        rw [beq_eq_false_iff_ne]
        intro hEq
        exact hnd.1 (hEq ▸ List.mem_map_of_mem Entry.title hmem)
      rw [List.find?_cons, hne]
      exact ih hnd.2 e hmem

/-- Processing a response that lists each given entry's exact title once, in
order, appends each resolved entry to the passed or removed list according
to its uppercased decision. -/
theorem processDecisions_mapped (pend : List Entry) (dec : Entry → String) :
    ∀ (todo : List Entry) (acc : GeminiLists),
      (∀ e ∈ todo, pend.find? (fun x => x.title == e.title) = some e) →
      processDecisions pend
        (todo.map (fun e => DecisionItem.obj (some e.title) (some (dec e)))) acc =
        (⟨acc.passed ++ todo.filter (fun e => upperStr (dec e) == "YES"),
          acc.removed ++ todo.filter (fun e => !(upperStr (dec e) == "YES"))⟩, true) := by
  intro todo
  induction todo with
  | nil => intro acc _; simp [processDecisions]
  | cons e rest ih =>
    intro acc hres
    simp only [List.map_cons, processDecisions, Option.getD_some]
    rw [hres e (List.mem_cons_self e rest)]
    dsimp only
    by_cases hy : (upperStr (dec e) == "YES") = true
    · rw [if_pos hy,
        ih ⟨acc.passed ++ [e], acc.removed⟩ (fun x hx => hres x (List.mem_cons_of_mem e hx))]
      simp [List.filter_cons, hy]
    · rw [if_neg hy,
        ih ⟨acc.passed, acc.removed ++ [e]⟩ (fun x hx => hres x (List.mem_cons_of_mem e hx))]
      have hy' : (upperStr (dec e) == "YES") = false := by
        cases hb : (upperStr (dec e) == "YES") with
        | false => rfl
        | true => exact absurd hb hy
      simp [List.filter_cons, hy']

/-- Unfolding lemma for one loop test. -/
theorem runLoop_step (env : OracleEnv) (pending : List Entry) (fuel : Nat)
    (s : LoopState) :
    runLoop env pending (fuel + 1) s =
      if s.attempt < s.maxAttempts && !s.apiSuccess then
        runLoop env pending fuel (attemptOnce env pending s)
      else s := rfl

theorem runLoop_zero (env : OracleEnv) (pending : List Entry) (s : LoopState) :
    runLoop env pending 0 s = s := rfl

/-- A mapped response list of title/decision objects has no non-object
element. -/
theorem hasNonDict_map_obj (f g : Entry → Option String) :
    ∀ l : List Entry,
      hasNonDict (l.map (fun e => DecisionItem.obj (f e) (g e))) = false := by
  intro l
  induction l with
  | nil => rfl
  | cons x xs ih => simpa [hasNonDict] using ih

/-- A configured attempt whose decoded list has no bad element classifies
the batch and sets `api_success`. -/
theorem attemptOnce_ok (env : OracleEnv) (pending : List Entry) (s : LoopState)
    (m : GeminiModelId) (ds : List DecisionItem)
    (hm : s.sess.model = some m)
    (hout : env.outcome s.attempt m = AttemptOutcome.ok ds)
    (hflag : hasNonDict ds = false) :
    attemptOnce env pending s =
      { s with lists := (processDecisions pending ds s.lists).1, apiSuccess := true } := by
  unfold attemptOnce
  rw [hm]
  dsimp only
  rw [hout]
  dsimp only
  rw [if_pos]
  rw [processDecisions_flag, hflag]
  rfl

/-- A successful loop state is a fixed point of the retry loop. -/
theorem runLoop_exit_now (env : OracleEnv) (pending : List Entry) (fuel : Nat)
    (s : LoopState) (h : s.apiSuccess = true) :
    runLoop env pending fuel s = s := by
  cases fuel with
  | zero => rfl
  | succ n => rw [runLoop_step]; simp [h]

/-- The retry loop when the very first attempt succeeds cleanly. -/
theorem runLoop_okFirst (env : OracleEnv) (pending : List Entry)
    (sess : SessionState) (m : GeminiModelId) (ds : List DecisionItem)
    (hm : sess.model = some m)
    (hout : env.outcome 0 m = AttemptOutcome.ok ds)
    (hflag : hasNonDict ds = false) :
    runLoop env pending 5 (initLoopState sess) =
      ⟨sess, 3, 0, (processDecisions pending ds ⟨[], []⟩).1, true⟩ := by
  have hc : ((initLoopState sess).attempt < (initLoopState sess).maxAttempts &&
      !(initLoopState sess).apiSuccess) = true := rfl
  rw [show (5 : Nat) = 4 + 1 from rfl, runLoop_step, if_pos hc,
    attemptOnce_ok env pending (initLoopState sess) m ds hm hout hflag]
  exact runLoop_exit_now env pending 4 _ rfl

/-- The whole Gemini stage when the first attempt succeeds cleanly on a
nonempty pending batch. -/
theorem geminiStageV4_okFirst (env : OracleEnv) (sess : SessionState)
    (m : GeminiModelId) (ds : List DecisionItem) (p : Entry) (ps : List Entry)
    (hm : sess.model = some m)
    (hout : env.outcome 0 m = AttemptOutcome.ok ds)
    (hflag : hasNonDict ds = false) :
    geminiStageV4 env sess (p :: ps) =
      ⟨(processDecisions (p :: ps) ds ⟨[], []⟩).1, false, sess⟩ := by
  unfold geminiStageV4
  rw [hm]
  rw [if_pos (show ((some m).isSome && !(p :: ps).isEmpty) = true from rfl)]
  rw [runLoop_okFirst env (p :: ps) sess m ds hm hout hflag]
  rfl

/-- C2 (amended).  Exactly one verdict per entry occurrence holds provided
the oracle stage, when it runs, succeeds on its first attempt with a
response that lists each pending entry's exact title once (and the pending
titles are pairwise distinct, so that title correlation is injective).
Without that response-completeness condition the invariant fails: a
successful response omitting a pending title leaves that entry with zero
verdicts (see the counterexample), and a response processed partially before
a mid-list failure followed by a successful retry assigns duplicates. -/
theorem c2_exactly_one_verdict :
    ∀ (env : OracleEnv) (b : Bool) (m : GeminiModelId) (strict : Bool)
      (entries : List Entry) (doc : XmlTree) (dec : Entry → String),
      (((classifyV4 (v4Blacklist strict) (v4Whitelist strict) entries).2.2.map
          Entry.title).Nodup) →
      env.outcome 0 m = AttemptOutcome.ok
        ((classifyV4 (v4Blacklist strict) (v4Whitelist strict) entries).2.2.map
          (fun e => DecisionItem.obj (some e.title) (some (dec e)))) →
      ∃ out, (filterRssForJournal env ⟨some m, b⟩ strict entries doc).1 =
          V4Result.normal out ∧
        ∀ e, countFour e out = countOcc e entries := by
  intro env b m strict entries doc dec hnd hout
  have hcount := classifyV4_count (v4Blacklist strict) (v4Whitelist strict)
  cases hp : (classifyV4 (v4Blacklist strict) (v4Whitelist strict) entries).2.2 with
  | nil =>
    refine ⟨⟨feedFilterV4
        (((classifyV4 (v4Blacklist strict) (v4Whitelist strict) entries).1 ++ []).map
          Entry.link) doc,
        (classifyV4 (v4Blacklist strict) (v4Whitelist strict) entries).1, [],
        (classifyV4 (v4Blacklist strict) (v4Whitelist strict) entries).2.1, []⟩, ?_, ?_⟩
    · simp only [filterRssForJournal, hp]
      rfl
    · intro e
      have h1 := hcount e entries
      rw [hp] at h1
      simp only [countFour, countOcc] at *
      omega
  | cons p ps =>
    have hres := find_title_self _ hnd
    rw [hp] at hres hout
    have hstage := geminiStageV4_okFirst env ⟨some m, b⟩ m
      ((p :: ps).map (fun e => DecisionItem.obj (some e.title) (some (dec e))))
      p ps rfl hout (hasNonDict_map_obj _ _ (p :: ps))
    rw [processDecisions_mapped (p :: ps) dec (p :: ps) ⟨[], []⟩ hres] at hstage
    simp only [List.nil_append] at hstage
    have hmain : (filterRssForJournal env ⟨some m, b⟩ strict entries doc).1 =
        V4Result.normal
          ⟨feedFilterV4
              ((((classifyV4 (v4Blacklist strict) (v4Whitelist strict) entries).1) ++
                (p :: ps).filter (fun e => upperStr (dec e) == "YES")).map Entry.link) doc,
            (classifyV4 (v4Blacklist strict) (v4Whitelist strict) entries).1,
            (p :: ps).filter (fun e => upperStr (dec e) == "YES"),
            (classifyV4 (v4Blacklist strict) (v4Whitelist strict) entries).2.1,
            (p :: ps).filter (fun e => !(upperStr (dec e) == "YES"))⟩ := by
      simp only [filterRssForJournal, hp]
      rw [hstage]
      rfl
    refine ⟨_, hmain, ?_⟩
    · intro e
      have h1 := hcount e entries
      rw [hp] at h1
      have h2 := countOcc_filter_split e (fun x => upperStr (dec x) == "YES") (p :: ps)
      simp only [countFour] at *
      omega

/-- Concrete run for the C2 counterexample: one pending entry, an oracle
that succeeds with an EMPTY decision list. -/
def outC2 : JournalOut := ⟨docX, [], [], [], []⟩

/-- C2 counterexample: the feed has one entry, `ePend`, which is UNDECIDED
by keywords and hence pending for the oracle.  The oracle call succeeds on
the first attempt but its response omits the entry's title (it is the empty
list).  The pipeline returns normally with all four classified-entry lists
empty: the entry reached the filtering stage with ZERO verdicts, refuting
the claim that every such entry gets exactly one. -/
theorem c2_counterexample :
    keywordVerdictV4 (v4Blacklist false) (v4Whitelist false) ePend = KVerdict.pending ∧
    (filterRssForJournal envEmptyOk ⟨some GeminiModelId.primary, true⟩ false
        [ePend] docX).1 = V4Result.normal outC2 ∧
    countFour ePend outC2 = 0 := by
  exact ⟨by decide, rfl, by decide⟩

/-- Witness for `c2_exactly_one_verdict`: the §8 end-to-end scenario (one
inclusion hit, one exclusion hit, one oracle "yes"). -/
theorem c2_witness :
    ∃ out, (filterRssForJournal
        ⟨fun _ _ => AttemptOutcome.ok [DecisionItem.obj (some "zzz") (some "yes")], true⟩
        ⟨some GeminiModelId.primary, true⟩ false [eSuper, eTumor, ePend] docX).1 =
        V4Result.normal out ∧
      ∀ e, countFour e out = countOcc e [eSuper, eTumor, ePend] :=
  c2_exactly_one_verdict
    ⟨fun _ _ => AttemptOutcome.ok [DecisionItem.obj (some "zzz") (some "yes")], true⟩
    true GeminiModelId.primary false [eSuper, eTumor, ePend] docX (fun _ => "yes")
    (by decide) (by decide)

/-- With no configured model the attempt only bumps the counter
(AttributeError raised at line 195 before any call, caught generically). -/
theorem attemptOnce_none (env : OracleEnv) (pending : List Entry) (s : LoopState)
    (h : s.sess.model = none) :
    attemptOnce env pending s = { s with attempt := s.attempt + 1 } := by
  unfold attemptOnce
  rw [h]

/-- A failing attempt bumps the counter and leaves `api_success` alone. -/
theorem attemptOnce_fail (env : OracleEnv) (pending : List Entry) (s : LoopState)
    (m : GeminiModelId) (hm : s.sess.model = some m)
    (hfail : attemptFails (env.outcome s.attempt m) = true) :
    (attemptOnce env pending s).attempt = s.attempt + 1 ∧
    (attemptOnce env pending s).apiSuccess = s.apiSuccess := by
  unfold attemptOnce
  rw [hm]
  dsimp only
  cases ho : env.outcome s.attempt m with
  | ok ds =>
    rw [ho] at hfail
    dsimp only [attemptFails] at hfail
    dsimp only
    rw [if_neg]
    · exact ⟨rfl, rfl⟩
    · rw [processDecisions_flag, hfail]
      simp
  | notList => exact ⟨rfl, rfl⟩
  | quotaError =>
    dsimp only
    by_cases hb : s.sess.usingPrimary = true
    · rw [if_pos hb]
      by_cases hf : env.fallbackOk = true
      · rw [if_pos hf]; exact ⟨rfl, rfl⟩
      · rw [if_neg hf]; exact ⟨rfl, rfl⟩
    · rw [if_neg hb]; exact ⟨rfl, rfl⟩
  | otherError => exact ⟨rfl, rfl⟩

/-- If every attempt fails, the loop never reaches `api_success`. -/
theorem runLoop_noSuccess (env : OracleEnv) (pending : List Entry)
    (hall : ∀ i m, attemptFails (env.outcome i m) = true) :
    ∀ (fuel : Nat) (s : LoopState), s.apiSuccess = false →
      (runLoop env pending fuel s).apiSuccess = false := by
  intro fuel
  induction fuel with
  | zero => intro s h; exact h
  | succ n ih =>
    intro s h
    rw [runLoop_step]
    split
    · apply ih
      cases hmo : s.sess.model with
      | none => rw [attemptOnce_none env pending s hmo]; exact h
      | some m =>
        rw [(attemptOnce_fail env pending s m hmo (hall s.attempt m)).2]; exact h
    · exact h

/-- The v4 Gemini stage under total oracle failure: every pending entry is
appended to the oracle-removed list and the RuntimeError is raised. -/
theorem geminiStageV4_exhaust (env : OracleEnv) (sess : SessionState)
    (m : GeminiModelId) (p : Entry) (ps : List Entry)
    (hm : sess.model = some m)
    (hall : ∀ i m', attemptFails (env.outcome i m') = true) :
    geminiStageV4 env sess (p :: ps) =
      ⟨⟨(runLoop env (p :: ps) 5 (initLoopState sess)).lists.passed,
        (runLoop env (p :: ps) 5 (initLoopState sess)).lists.removed ++ (p :: ps)⟩,
       true, (runLoop env (p :: ps) 5 (initLoopState sess)).sess⟩ := by
  unfold geminiStageV4
  rw [hm, if_pos (show ((some m).isSome && !(p :: ps).isEmpty) = true from rfl)]
  dsimp only
  rw [runLoop_noSuccess env (p :: ps) hall 5 (initLoopState sess) rfl]
  rfl

/-- The v2 response-processing loop reports failure exactly when the decoded
list contains a non-object element. -/
theorem processDecisionsV2_flag (pending : List Entry) :
    ∀ (ds : List DecisionItem) (acc : LinkSets),
      (processDecisionsV2 pending ds acc).2 = !hasNonDict ds := by
  intro ds
  induction ds with
  | nil => intro acc; simp [processDecisionsV2, hasNonDict]
  | cons d rest ih =>
    intro acc
    cases d with
    | nonDict => simp [processDecisionsV2, hasNonDict]
    | obj t dec =>
      simp only [processDecisionsV2, hasNonDict]
      cases pending.find? (fun e => e.title == (t.getD "")) with
      | none => exact ih acc
      | some e =>
        by_cases hy : (upperStr (dec.getD "") == "YES") = true <;>
          simp [hy, ih]

/-- If every attempt fails, the v2 retry loop never succeeds. -/
theorem geminiTriesV2_noSuccess (env : Nat → AttemptOutcome) (pending : List Entry)
    (hall : ∀ i, attemptFails (env i) = true) :
    ∀ (fuel i : Nat) (acc : LinkSets),
      (geminiTriesV2 env pending fuel i acc).2 = false := by
  intro fuel
  induction fuel with
  | zero => intro i acc; rfl
  | succ n ih =>
    intro i acc
    unfold geminiTriesV2
    cases ho : env i with
    | ok ds =>
      have hfail := hall i
      rw [ho] at hfail
      dsimp only [attemptFails] at hfail
      dsimp only
      rw [if_neg]
      · exact ih (i + 1) _
      · rw [processDecisionsV2_flag, hfail]
        simp
    | notList => exact ih (i + 1) acc
    | quotaError => exact ih (i + 1) acc
    | otherError => exact ih (i + 1) acc

/-- Inserting into a link set preserves membership. -/
theorem addLink_mem_mono (s : List String) (l a : String) (h : a ∈ s) :
    a ∈ addLink s l := by
  unfold addLink
  split
  · exact h
  · exact List.mem_append_left _ h

/-- The inserted link is a member of the result. -/
theorem addLink_mem_self (s : List String) (l : String) : l ∈ addLink s l := by
  unfold addLink
  split
  · next h => exact List.mem_of_elem_eq_true h
  · exact List.mem_append_right _ (List.mem_singleton.mpr rfl)

/-- Folding link insertion preserves membership. -/
theorem foldl_addLink_mono (a : String) :
    ∀ (es : List Entry) (s : List String), a ∈ s →
      a ∈ es.foldl (fun s x => addLink s x.link) s := by
  intro es
  induction es with
  | nil => intro s h; exact h
  | cons x xs ih => intro s h; exact ih _ (addLink_mem_mono s x.link a h)

/-- Every listed entry's link is in the folded link set
(`removed_links.update(...)` of filter_rss_v2.py line 121). -/
theorem mem_foldl_addLink (e : Entry) :
    ∀ (es : List Entry) (s : List String), e ∈ es →
      e.link ∈ es.foldl (fun s x => addLink s x.link) s := by
  intro es
  induction es with
  | nil => intro s h; cases h
  | cons x xs ih =>
    intro s h
    rcases List.mem_cons.1 h with rfl | hmem
    · exact foldl_addLink_mono e.link xs _ (addLink_mem_self s e.link)
    · exact ih _ hmem

/-- C3 (amended).  Under total oracle failure both variants fail closed:
every still-pending entry is marked oracle-removed.  Only v4 then signals a
fatal error by raising (RuntimeError, line 248); v2 records the removals in
`removed_links` and RETURNS NORMALLY (lines 119-121), continuing to the XML
filtering stage. -/
theorem c3_fail_closed :
    (∀ (env : OracleEnv) (sess : SessionState) (m : GeminiModelId)
        (p : Entry) (ps : List Entry),
      sess.model = some m →
      (∀ i m', attemptFails (env.outcome i m') = true) →
      (geminiStageV4 env sess (p :: ps)).raised = true ∧
      ∃ pre, (geminiStageV4 env sess (p :: ps)).lists.removed = pre ++ (p :: ps)) ∧
    (∀ (env : Nat → AttemptOutcome) (entries : List Entry) (doc : XmlTree),
      (∀ i, attemptFails (env i) = true) →
      ∃ d l, filterRssV2 env true entries doc = V2Result.normal d l ∧
        ∀ e ∈ (keywordStageV2 entries).2, e.link ∈ l.removed) := by
  constructor
  · intro env sess m p ps hm hall
    rw [geminiStageV4_exhaust env sess m p ps hm hall]
    exact ⟨rfl, _, rfl⟩
  · intro env entries doc hall
    refine ⟨_, _, rfl, ?_⟩
    intro e he
    unfold geminiStageV2
    have hne : (keywordStageV2 entries).2.isEmpty = false := by
      cases h2 : (keywordStageV2 entries).2 with
      | nil => rw [h2] at he; cases he
      | cons a as => rfl
    rw [hne, if_pos (show (true && !false) = true from rfl)]
    dsimp only
    rw [geminiTriesV2_noSuccess env (keywordStageV2 entries).2 hall 3 0
      (keywordStageV2 entries).1]
    exact mem_foldl_addLink e (keywordStageV2 entries).2 _ he

/-- C3 counterexample: an UNDECIDED entry, an oracle failing on every
attempt.  The claim asserts the per-source pipeline raises rather than
returning normally, citing both variants; the v2 pipeline instead marks the
pending link removed and returns its normal result. -/
theorem c3_counterexample :
    filterRssV2 (fun _ => AttemptOutcome.otherError) true [ePend] docX =
      V2Result.normal docX ⟨[], ["http://e/p"]⟩ := by rfl

/-- Witness for `c3_fail_closed` at concrete inputs. -/
theorem c3_witness :
    ((geminiStageV4 envFail ⟨some GeminiModelId.primary, true⟩ [ePend]).raised = true ∧
      ∃ pre, (geminiStageV4 envFail ⟨some GeminiModelId.primary, true⟩
          [ePend]).lists.removed = pre ++ [ePend]) ∧
    (∃ d l, filterRssV2 (fun _ => AttemptOutcome.otherError) true [ePend] docX =
        V2Result.normal d l ∧
      ∀ e ∈ (keywordStageV2 [ePend]).2, e.link ∈ l.removed) :=
  ⟨c3_fail_closed.1 envFail ⟨some GeminiModelId.primary, true⟩ GeminiModelId.primary
      ePend [] rfl (fun _ _ => rfl),
   c3_fail_closed.2 (fun _ => AttemptOutcome.otherError) [ePend] docX (fun _ => rfl)⟩

/-- Once off the primary model, an iteration never touches the session or
the attempt budget. -/
theorem attemptOnce_frozen (env : OracleEnv) (pending : List Entry)
    (s : LoopState) (h : s.sess.usingPrimary = false) :
    (attemptOnce env pending s).sess = s.sess ∧
    (attemptOnce env pending s).maxAttempts = s.maxAttempts := by
  unfold attemptOnce
  cases hmo : s.sess.model with
  | none => exact ⟨rfl, rfl⟩
  | some m =>
    dsimp only
    cases ho : env.outcome s.attempt m with
    | ok ds =>
      dsimp only
      split
      · exact ⟨rfl, rfl⟩
      · exact ⟨rfl, rfl⟩
    | notList => exact ⟨rfl, rfl⟩
    | quotaError =>
      dsimp only
      rw [if_neg]
      · exact ⟨rfl, rfl⟩
      · rw [h]; simp
    | otherError => exact ⟨rfl, rfl⟩

/-- Once off the primary model, the whole loop never touches the session or
the attempt budget. -/
theorem runLoop_frozen (env : OracleEnv) (pending : List Entry) :
    ∀ (fuel : Nat) (s : LoopState), s.sess.usingPrimary = false →
      (runLoop env pending fuel s).sess = s.sess ∧
      (runLoop env pending fuel s).maxAttempts = s.maxAttempts := by
  intro fuel
  induction fuel with
  | zero => intro s _; exact ⟨rfl, rfl⟩
  | succ n ih =>
    intro s h
    rw [runLoop_step]
    split
    · have hs := attemptOnce_frozen env pending s h
      have h2 : (attemptOnce env pending s).sess.usingPrimary = false := by
        rw [hs.1]; exact h
      have hr := ih (attemptOnce env pending s) h2
      exact ⟨by rw [hr.1, hs.1], by rw [hr.2, hs.2]⟩
    · exact ⟨rfl, rfl⟩

/-- One iteration preserves the session invariant: either still on primary
with the base budget (the model being the primary or None after a failed
fallback construction), or switched once with exactly one extra attempt. -/
theorem attemptOnce_inv (env : OracleEnv) (pending : List Entry) (s : LoopState)
    (h : (s.maxAttempts = 3 ∧ s.sess.usingPrimary = true ∧
           (s.sess.model = some GeminiModelId.primary ∨ s.sess.model = none)) ∨
         (s.maxAttempts = 4 ∧ s.sess.usingPrimary = false ∧
           s.sess.model = some GeminiModelId.fallback)) :
    ((attemptOnce env pending s).maxAttempts = 3 ∧
      (attemptOnce env pending s).sess.usingPrimary = true ∧
      ((attemptOnce env pending s).sess.model = some GeminiModelId.primary ∨
        (attemptOnce env pending s).sess.model = none)) ∨
    ((attemptOnce env pending s).maxAttempts = 4 ∧
      (attemptOnce env pending s).sess.usingPrimary = false ∧
      (attemptOnce env pending s).sess.model = some GeminiModelId.fallback) := by
  rcases h with ⟨h3, hb, hmo⟩ | ⟨h4, hb, hmo⟩
  · rcases hmo with hmo | hmo
    · unfold attemptOnce
      rw [hmo]
      dsimp only
      cases ho : env.outcome s.attempt GeminiModelId.primary with
      | ok ds =>
        dsimp only
        split
        · exact Or.inl ⟨h3, hb, Or.inl hmo⟩
        · exact Or.inl ⟨h3, hb, Or.inl hmo⟩
      | notList => exact Or.inl ⟨h3, hb, Or.inl hmo⟩
      | quotaError =>
        dsimp only
        rw [if_pos hb]
        by_cases hf : env.fallbackOk = true
        · rw [if_pos hf]
          exact Or.inr ⟨by rw [h3], rfl, rfl⟩
        · rw [if_neg hf]
          exact Or.inl ⟨h3, hb, Or.inr rfl⟩
      | otherError => exact Or.inl ⟨h3, hb, Or.inl hmo⟩
    · rw [attemptOnce_none env pending s hmo]
      exact Or.inl ⟨h3, hb, Or.inr hmo⟩
  · have hf := attemptOnce_frozen env pending s hb
    exact Or.inr ⟨by rw [hf.2]; exact h4, by rw [hf.1]; exact hb, by rw [hf.1]; exact hmo⟩

/-- The loop preserves the session invariant. -/
theorem runLoop_inv (env : OracleEnv) (pending : List Entry) :
    ∀ (fuel : Nat) (s : LoopState),
      ((s.maxAttempts = 3 ∧ s.sess.usingPrimary = true ∧
         (s.sess.model = some GeminiModelId.primary ∨ s.sess.model = none)) ∨
       (s.maxAttempts = 4 ∧ s.sess.usingPrimary = false ∧
         s.sess.model = some GeminiModelId.fallback)) →
      (((runLoop env pending fuel s).maxAttempts = 3 ∧
         (runLoop env pending fuel s).sess.usingPrimary = true ∧
         ((runLoop env pending fuel s).sess.model = some GeminiModelId.primary ∨
           (runLoop env pending fuel s).sess.model = none)) ∨
       ((runLoop env pending fuel s).maxAttempts = 4 ∧
         (runLoop env pending fuel s).sess.usingPrimary = false ∧
         (runLoop env pending fuel s).sess.model = some GeminiModelId.fallback)) := by
  intro fuel
  induction fuel with
  | zero => intro s h; exact h
  | succ n ih =>
    intro s h
    rw [runLoop_step]
    split
    · exact ih _ (attemptOnce_inv env pending s h)
    · exact h

/-- A session change in one iteration can only be the quota-triggered
downgrade taken while still on the primary model. -/
theorem attemptOnce_sess_change (env : OracleEnv) (pending : List Entry)
    (s : LoopState) (h : (attemptOnce env pending s).sess ≠ s.sess) :
    s.sess.usingPrimary = true ∧
    ∃ m, s.sess.model = some m ∧
      env.outcome s.attempt m = AttemptOutcome.quotaError := by
  by_cases hb : s.sess.usingPrimary = true
  · refine ⟨hb, ?_⟩
    cases hmo : s.sess.model with
    | none =>
      exact absurd (by rw [attemptOnce_none env pending s hmo]) h
    | some m =>
      refine ⟨m, rfl, ?_⟩
      cases ho : env.outcome s.attempt m with
      | quotaError => rfl
      | ok ds =>
        exfalso
        apply h
        unfold attemptOnce
        rw [hmo]
        dsimp only
        rw [ho]
        dsimp only
        split <;> rfl
      | notList =>
        exfalso
        apply h
        unfold attemptOnce
        rw [hmo]
        dsimp only
        rw [ho]
      | otherError =>
        exfalso
        apply h
        unfold attemptOnce
        rw [hmo]
        dsimp only
        rw [ho]
  · have hb' : s.sess.usingPrimary = false := by
      revert hb
      cases s.sess.usingPrimary <;> simp
    exact absurd (attemptOnce_frozen env pending s hb').1 h

/-- C4.  Starting the retry loop on the primary model with budget 3, at most
one downgrade ever happens: if the session is still on the primary at exit
the budget is still 3 (and the model is the primary, or None after a failed
fallback construction); if it has left the primary the model is exactly the
fallback and the budget is exactly 4 (one extra attempt, granted once).
Moreover, once off the primary, no iteration changes the session or the
budget (no second downgrade, no second extra attempt, no reversion), and any
session change at all requires a quota error received while on the primary. -/
theorem c4_single_downgrade :
    ∀ (env : OracleEnv) (pending : List Entry),
      (((runLoop env pending 5
            (initLoopState ⟨some GeminiModelId.primary, true⟩)).sess.usingPrimary = true →
        (runLoop env pending 5
            (initLoopState ⟨some GeminiModelId.primary, true⟩)).maxAttempts = 3 ∧
        ((runLoop env pending 5
            (initLoopState ⟨some GeminiModelId.primary, true⟩)).sess.model =
              some GeminiModelId.primary ∨
         (runLoop env pending 5
            (initLoopState ⟨some GeminiModelId.primary, true⟩)).sess.model = none)) ∧
       ((runLoop env pending 5
            (initLoopState ⟨some GeminiModelId.primary, true⟩)).sess.usingPrimary = false →
        (runLoop env pending 5
            (initLoopState ⟨some GeminiModelId.primary, true⟩)).maxAttempts = 4 ∧
        (runLoop env pending 5
            (initLoopState ⟨some GeminiModelId.primary, true⟩)).sess.model =
          some GeminiModelId.fallback)) ∧
      (∀ s : LoopState, s.sess.usingPrimary = false →
        (attemptOnce env pending s).sess = s.sess ∧
        (attemptOnce env pending s).maxAttempts = s.maxAttempts) ∧
      (∀ s : LoopState, (attemptOnce env pending s).sess ≠ s.sess →
        s.sess.usingPrimary = true ∧
        ∃ m, s.sess.model = some m ∧
          env.outcome s.attempt m = AttemptOutcome.quotaError) := by
  intro env pending
  refine ⟨?_, fun s h => attemptOnce_frozen env pending s h,
    fun s h => attemptOnce_sess_change env pending s h⟩
  have hinv := runLoop_inv env pending 5
    (initLoopState ⟨some GeminiModelId.primary, true⟩)
    (Or.inl ⟨rfl, rfl, Or.inl rfl⟩)
  rcases hinv with ⟨h3, hb, hmo⟩ | ⟨h4, hb, hmo⟩
  · constructor
    · intro _; exact ⟨h3, hmo⟩
    · intro hc; rw [hb] at hc; cases hc
  · constructor
    · intro hc; rw [hb] at hc; cases hc
    · intro _; exact ⟨h4, hmo⟩

/-- Witness for `c4_single_downgrade`: with quota errors on every attempt,
the loop ends on the fallback with budget exactly 4. -/
theorem c4_witness :
    (runLoop envQuota [] 5
        (initLoopState ⟨some GeminiModelId.primary, true⟩)).maxAttempts = 4 ∧
    (runLoop envQuota [] 5
        (initLoopState ⟨some GeminiModelId.primary, true⟩)).sess.model =
      some GeminiModelId.fallback :=
  ((c4_single_downgrade envQuota []).1.2 (by decide))

/-- An entry whose title differs from the one the oracle returns. -/
def eY5 : Entry := ⟨"Y-title", "", "http://y/5"⟩

/-- C5 (amended).  Per returned (title, decision) object: resolution is by
exact title match with first-match-wins on duplicates; a resolved entry is
PASSed when the uppercased decision equals "YES" (so the comparison is
case-insensitive) and REJECTed otherwise, including a missing decision field
(which defaults to the empty string); but a returned title that resolves to
NO pending entry is IGNORED — it contributes no verdict and nothing is
appended to either list. -/
theorem c5_decision_resolution :
    (∀ (pending : List Entry) (t d : String) (rest : List DecisionItem)
        (acc : GeminiLists),
      (pending.find? (fun x => x.title == t) = none →
        processDecisions pending (DecisionItem.obj (some t) (some d) :: rest) acc =
          processDecisions pending rest acc) ∧
      (∀ e, pending.find? (fun x => x.title == t) = some e →
        (upperStr d = "YES" →
          processDecisions pending (DecisionItem.obj (some t) (some d) :: rest) acc =
            processDecisions pending rest ⟨acc.passed ++ [e], acc.removed⟩) ∧
        (upperStr d ≠ "YES" →
          processDecisions pending (DecisionItem.obj (some t) (some d) :: rest) acc =
            processDecisions pending rest ⟨acc.passed, acc.removed ++ [e]⟩)) ∧
      (∀ e, pending.find? (fun x => x.title == t) = some e →
        processDecisions pending (DecisionItem.obj (some t) none :: rest) acc =
          processDecisions pending rest ⟨acc.passed, acc.removed ++ [e]⟩)) ∧
    (∀ (e1 : Entry) (tl : List Entry) (t : String), e1.title = t →
      (e1 :: tl).find? (fun x => x.title == t) = some e1) := by
  constructor
  · intro pending t d rest acc
    refine ⟨?_, ?_, ?_⟩
    · intro h
      simp only [processDecisions, Option.getD_some]
      rw [h]
    · intro e h
      constructor
      · intro hd
        simp only [processDecisions, Option.getD_some]
        rw [h]
        dsimp only
        rw [if_pos (by rw [hd]; rfl)]
      · intro hd
        simp only [processDecisions, Option.getD_some]
        rw [h]
        dsimp only
        rw [if_neg (by simpa using hd)]
    · intro e h
      simp only [processDecisions, Option.getD_none, Option.getD_some]
      rw [h]
      dsimp only
      rw [if_neg (by decide)]
  · intro e1 tl t h
    have hb : (e1.title == t) = true := by rw [h]; exact beq_self_eq_true t
    simp [List.find?_cons, hb]

/-- C5 counterexample: the oracle returns a title resolving to no pending
entry.  The claim says it "still yields a REJECT rather than being ignored";
the code's `if original_entry:` guard (v4 line 217, v2 line 105) skips it:
processing succeeds with both oracle lists still empty. -/
theorem c5_counterexample :
    processDecisions [eY5] [DecisionItem.obj (some "X") (some "NO")] ⟨[], []⟩ =
      (⟨[], []⟩, true) ∧
    [eY5].find? (fun x => x.title == "X") = none := by decide

/-- Witness for `c5_decision_resolution` at concrete inputs. -/
theorem c5_witness :
    (processDecisions [ePend] [DecisionItem.obj (some "zzz") (some "yes")] ⟨[], []⟩ =
      processDecisions [ePend] [] ⟨[] ++ [ePend], []⟩) ∧
    (processDecisions [ePend] [DecisionItem.obj (some "zzz") none] ⟨[], []⟩ =
      processDecisions [ePend] [] ⟨[], [] ++ [ePend]⟩) :=
  ⟨((c5_decision_resolution.1 [ePend] "zzz" "yes" [] ⟨[], []⟩).2.1 ePend
      (by decide)).1 (by decide),
   (c5_decision_resolution.1 [ePend] "zzz" "yes" [] ⟨[], []⟩).2.2 ePend (by decide)⟩

/-! Element-tree bookkeeping lemmas. -/

theorem XmlTree.tag_withChildren (t : XmlTree) (cs : List XmlTree) :
    (t.withChildren cs).tag = t.tag := by cases t; rfl

theorem XmlTree.children_withChildren (t : XmlTree) (cs : List XmlTree) :
    (t.withChildren cs).children = cs := by cases t; rfl

theorem XmlTree.attrs_withChildren (t : XmlTree) (cs : List XmlTree) :
    (t.withChildren cs).attrs = t.attrs := by cases t; rfl

theorem XmlTree.attr_withChildren (t : XmlTree) (cs : List XmlTree) (n : String) :
    (t.withChildren cs).attr n = t.attr n := by cases t; rfl

theorem XmlTree.text_withChildren (t : XmlTree) (cs : List XmlTree) :
    (t.withChildren cs).text = t.text := by cases t; rfl

theorem XmlTree.withChildren_withChildren (t : XmlTree) (a b : List XmlTree) :
    (t.withChildren a).withChildren b = t.withChildren b := by cases t; rfl

/-- `find` after mutating the first child with the sought tag (the mutation
preserving tags) finds the mutated child. -/
theorem applyFirst_find (tg : String) (f : XmlTree → XmlTree)
    (hf : ∀ t, (f t).tag = t.tag) :
    ∀ l : List XmlTree,
      firstWithTag tg (applyFirst tg f l) = (firstWithTag tg l).map f := by
  intro l
  induction l with
  | nil => rfl
  | cons c cs ih =>
    unfold applyFirst
    by_cases h : c.tag = tg
    · rw [if_pos h]
      have h1 : ((f c).tag == tg) = true := by rw [hf c, h]; exact beq_self_eq_true tg
      have h2 : (c.tag == tg) = true := by rw [h]; exact beq_self_eq_true tg
      simp [firstWithTag, List.find?_cons, h1, h2]
    · rw [if_neg h]
      have h2 : (c.tag == tg) = false := by rw [beq_eq_false_iff_ne]; exact h
      simp only [firstWithTag] at ih ⊢
      simp [List.find?_cons, h2, ih]

/-- Mutating the first matching child twice composes the mutations. -/
theorem applyFirst_comp (tg : String) (f : XmlTree → XmlTree)
    (hf : ∀ t, (f t).tag = t.tag) :
    ∀ l : List XmlTree,
      applyFirst tg f (applyFirst tg f l) = applyFirst tg (fun t => f (f t)) l := by
  intro l
  induction l with
  | nil => rfl
  | cons c cs ih =>
    by_cases h : c.tag = tg
    · simp [applyFirst, h, hf c]
    · simp [applyFirst, h, ih]

theorem applyFirst_congr (tg : String) (f g : XmlTree → XmlTree)
    (h : ∀ t, f t = g t) :
    ∀ l : List XmlTree, applyFirst tg f l = applyFirst tg g l := by
  intro l
  induction l with
  | nil => rfl
  | cons c cs ih =>
    by_cases hc : c.tag = tg
    · simp [applyFirst, hc, h c]
    · simp [applyFirst, hc, ih]

theorem filter_idem {α : Type} (p : α → Bool) :
    ∀ l : List α, (l.filter p).filter p = l.filter p := by
  intro l
  induction l with
  | nil => rfl
  | cons x xs ih =>
    cases hp : p x <;> simp [List.filter_cons, hp, ih]

theorem filter_map_comm {α : Type} (p : α → Bool) (f : α → α)
    (h : ∀ c, p (f c) = p c) :
    ∀ l : List α, (l.map f).filter p = (l.filter p).map f := by
  intro l
  induction l with
  | nil => rfl
  | cons x xs ih =>
    cases hp : p x <;> simp [List.filter_cons, h, hp, ih]

/-- Removing children failing `!(p && q)` and then selecting the `p`-tagged
ones is selecting the `p`-tagged ones and removing those failing `!q`. -/
theorem filterMask {α : Type} (p q : α → Bool) :
    ∀ l : List α,
      (l.filter (fun c => !(p c && q c))).filter p =
        (l.filter p).filter (fun c => !(q c)) := by
  intro l
  induction l with
  | nil => rfl
  | cons x xs ih =>
    cases hp : p x <;> cases hq : q x <;>
      simp [List.filter_cons, hp, hq] <;>
      exact List.filter_congr (fun a _ => by cases hpa : p a <;> cases hqa : q a <;>
        simp [hpa, hqa])

theorem mapCongrMem {α β : Type} (f g : α → β) :
    ∀ l : List α, (∀ c ∈ l, f c = g c) → l.map f = l.map g := by
  intro l
  induction l with
  | nil => intro _; rfl
  | cons x xs ih =>
    intro h
    simp only [List.map_cons]
    rw [h x (List.mem_cons_self x xs), ih (fun c hc => h c (List.mem_cons_of_mem x hc))]

theorem boolNotTrue {b : Bool} (h : ¬ b = true) : b = false := by
  cases b
  · rfl
  · exact absurd rfl h

/-- Updating one channel's Seq prunes exactly the `li` nodes matching the
removal condition. -/
theorem channelLis_update (liCond : XmlTree → Bool) (ch : XmlTree) :
    channelLis (channelSeqUpdate liCond ch) =
      (channelLis ch).filter (fun c => !(liCond c)) := by
  unfold channelLis channelSeqUpdate
  rw [XmlTree.children_withChildren,
    applyFirst_find rss1ItemsTag _ (fun t => XmlTree.tag_withChildren t _) ch.children]
  cases h1 : firstWithTag rss1ItemsTag ch.children with
  | none => rfl
  | some its =>
    simp only [Option.map_some']
    rw [XmlTree.children_withChildren,
      applyFirst_find rdfSeqTag (seqFilter liCond)
        (fun t => XmlTree.tag_withChildren t _) its.children]
    cases h2 : firstWithTag rdfSeqTag its.children with
    | none => rfl
    | some sq =>
      simp only [Option.map_some']
      unfold seqFilter
      rw [XmlTree.children_withChildren]
      exact filterMask (fun c => c.tag == rdfLiTag) liCond sq.children

/-- Child-list form of the RDF Seq consistency: pruning items and updating
each channel prunes exactly the `li` nodes matching the removal condition. -/
theorem seqLis_aux (ic lc : XmlTree → Bool) :
    ∀ cs : List XmlTree,
      (((cs.filter (fun c => !(c.tag == rss1ItemTag && ic c))).map
            (fun c => if c.tag = rss1ChannelTag then channelSeqUpdate lc c else c)).filter
          (fun c => c.tag == rss1ChannelTag)).flatMap channelLis =
        ((cs.filter (fun c => c.tag == rss1ChannelTag)).flatMap channelLis).filter
          (fun c => !(lc c)) := by
  intro cs
  induction cs with
  | nil => rfl
  | cons c rest ih =>
    by_cases hch : c.tag = rss1ChannelTag
    · have hit : (c.tag == rss1ItemTag) = false := by
        rw [beq_eq_false_iff_ne, hch]
        decide
      have hcb : (c.tag == rss1ChannelTag) = true := by
        rw [hch]; exact beq_self_eq_true _
      have htag : ((channelSeqUpdate lc c).tag == rss1ChannelTag) = true := by
        unfold channelSeqUpdate
        rw [XmlTree.tag_withChildren]
        exact hcb
      simp only [List.filter_cons, hit, Bool.false_and, Bool.not_false,
        eq_self_iff_true, if_true, List.map_cons, if_pos hch, htag, hcb,
        Bool.false_eq_true, if_false, List.flatMap_cons, ih,
        channelLis_update, List.filter_append]
    · have hcb : (c.tag == rss1ChannelTag) = false := by
        rw [beq_eq_false_iff_ne]; exact hch
      by_cases hdrop : (c.tag == rss1ItemTag && ic c) = true
      · simp only [List.filter_cons, hdrop, Bool.not_true, Bool.false_eq_true,
          if_false, hcb, ih]
      · have hkeep : (!(c.tag == rss1ItemTag && ic c)) = true := by
          rw [boolNotTrue hdrop]; rfl
        simp only [List.filter_cons, hkeep, List.map_cons, if_neg hch, hcb,
          Bool.false_eq_true, eq_self_iff_true, if_false, if_true, ih]

/-- Child-list form of the RDF item removal. -/
theorem rdfItems_aux (ic lc : XmlTree → Bool) :
    ∀ cs : List XmlTree,
      (((cs.filter (fun c => !(c.tag == rss1ItemTag && ic c))).map
            (fun c => if c.tag = rss1ChannelTag then channelSeqUpdate lc c else c)).filter
          (fun c => c.tag == rss1ItemTag)) =
        (cs.filter (fun c => c.tag == rss1ItemTag)).filter (fun c => !(ic c)) := by
  intro cs
  induction cs with
  | nil => rfl
  | cons c rest ih =>
    by_cases hi : (c.tag == rss1ItemTag) = true
    · have hch : ¬(c.tag = rss1ChannelTag) := by
        intro hEq
        rw [hEq] at hi
        have : rss1ChannelTag = rss1ItemTag := by
          exact eq_of_beq hi
        exact absurd this (by decide)
      by_cases hic : ic c = true
      · have hdrop : (!(c.tag == rss1ItemTag && ic c)) = false := by
          rw [hi, hic]; rfl
        simp only [List.filter_cons, hi, hic, Bool.true_and, Bool.not_true,
          Bool.false_eq_true, eq_self_iff_true, if_false, if_true, ih]
      · have hicf : ic c = false := by
          rw [Bool.not_eq_true] at hic; exact hic
        have hkeep : (!(c.tag == rss1ItemTag && ic c)) = true := by
          rw [hi, hicf]; rfl
        simp only [List.filter_cons, hi, hicf, Bool.true_and, Bool.not_false,
          eq_self_iff_true, if_true, List.map_cons, if_neg hch, Bool.not_true,
          Bool.false_eq_true, if_false, ih]
    · have hib : (c.tag == rss1ItemTag) = false := by
        rw [Bool.not_eq_true] at hi; exact hi
      have hkeep : (!(c.tag == rss1ItemTag && ic c)) = true := by
        rw [hib]; rfl
      have htag2 : ((if c.tag = rss1ChannelTag then channelSeqUpdate lc c else c).tag ==
          rss1ItemTag) = false := by
        by_cases hch : c.tag = rss1ChannelTag
        · rw [if_pos hch]
          unfold channelSeqUpdate
          rw [XmlTree.tag_withChildren]
          exact hib
        · rw [if_neg hch]
          exact hib
      simp only [List.filter_cons, hib, Bool.false_and, Bool.not_false,
        eq_self_iff_true, if_true, List.map_cons, htag2, Bool.false_eq_true,
        if_false, ih]

/-- The RDF branch prunes exactly the Seq `li` nodes matching the removal
condition, in every channel. -/
theorem seqLisOf_rdfFilter (ic lc : XmlTree → Bool) (root : XmlTree) :
    seqLisOf (rdfFilter ic lc root) = (seqLisOf root).filter (fun c => !(lc c)) := by
  unfold rdfFilter seqLisOf
  rw [XmlTree.children_withChildren]
  exact seqLis_aux ic lc root.children

/-- The RDF branch prunes exactly the top-level items matching the removal
condition. -/
theorem rdfItemsOf_rdfFilter (ic lc : XmlTree → Bool) (root : XmlTree) :
    rdfItemsOf (rdfFilter ic lc root) = (rdfItemsOf root).filter (fun c => !(ic c)) := by
  unfold rdfFilter rdfItemsOf
  rw [XmlTree.children_withChildren]
  exact rdfItems_aux ic lc root.children

/-- Dialect dispatch: the v4 Feed Filter on an RDF root. -/
theorem feedFilterV4_rdf (passed : List String) (root : XmlTree)
    (h : root.tag = rdfRootTag) :
    feedFilterV4 passed root =
      rdfFilter (rdfItemRemoved passed) (liRemovedV4 passed) root := by
  unfold feedFilterV4
  rw [h, if_neg (by decide), if_neg (by decide), if_pos rfl]

/-- Dialect dispatch: the v2 Feed Filter on an RDF root. -/
theorem feedFilterV2_rdf (passed removed : List String) (root : XmlTree)
    (h : root.tag = rdfRootTag) :
    feedFilterV2 passed removed root =
      rdfFilter (rdfItemRemoved passed) (liRemovedV2 removed) root := by
  unfold feedFilterV2
  rw [h, if_neg (by decide), if_neg (by decide), if_pos rfl]

/-- The plain-RSS branch prunes exactly the non-passing items of the first
channel. -/
theorem rssItemsOf_feedFilterV4 (passed : List String) (root : XmlTree)
    (h : root.tag = "rss") :
    rssItemsOf (feedFilterV4 passed root) =
      (rssItemsOf root).filter (fun c => !(rssItemRemoved passed c)) := by
  unfold feedFilterV4
  rw [if_pos h]
  unfold rssFilter rssItemsOf
  rw [XmlTree.children_withChildren,
    applyFirst_find "channel"
      (fun ch => ch.withChildren (ch.children.filter
        (fun c => !(c.tag == "item" && rssItemRemoved passed c))))
      (fun t => XmlTree.tag_withChildren t _) root.children]
  cases h1 : firstWithTag "channel" root.children with
  | none => rfl
  | some ch =>
    simp only [Option.map_some']
    rw [XmlTree.children_withChildren]
    exact filterMask (fun c => c.tag == "item") (rssItemRemoved passed) ch.children

/-- C6 (amended).  In v4 the Seq manifest is made consistent with the PASS
set: after filtering an RDF document, every surviving `li` carries a
resource that is in PASS, every `li` whose resource is in PASS survives, and
every item whose `rdf:about` is in PASS survives alongside it.  In v2 the
`li` list is instead pruned by membership in the REJECT-link set
(`removed_links`), so an `li` whose resource is in neither set survives
despite not being in PASS. -/
theorem c6_rdf_seq_consistency :
    (∀ (passed : List String) (root : XmlTree), root.tag = rdfRootTag →
      (∀ li ∈ seqLisOf (feedFilterV4 passed root),
        ∃ r, li.attr rdfResourceAttr = some r ∧ r ∈ passed) ∧
      (∀ li ∈ seqLisOf root, ∀ r, li.attr rdfResourceAttr = some r →
        r ∈ passed → li ∈ seqLisOf (feedFilterV4 passed root)) ∧
      (∀ it ∈ rdfItemsOf root, ∀ r, it.attr rdfAboutAttr = some r →
        r ∈ passed → it ∈ rdfItemsOf (feedFilterV4 passed root))) ∧
    (∀ (passed removed : List String) (root : XmlTree), root.tag = rdfRootTag →
      seqLisOf (feedFilterV2 passed removed root) =
        (seqLisOf root).filter (fun li => !(liRemovedV2 removed li))) := by
  constructor
  · intro passed root h
    rw [feedFilterV4_rdf passed root h, seqLisOf_rdfFilter, rdfItemsOf_rdfFilter]
    refine ⟨?_, ?_, ?_⟩
    · intro li hli
      obtain ⟨hmem, hcond⟩ := List.mem_filter.1 hli
      have hrem : liRemovedV4 passed li = false := by
        cases hb : liRemovedV4 passed li with
        | false => rfl
        | true => rw [hb] at hcond; cases hcond
      unfold liRemovedV4 at hrem
      cases hattr : li.attr rdfResourceAttr with
      | none => rw [hattr] at hrem; cases hrem
      | some r =>
        rw [hattr] at hrem
        dsimp only at hrem
        refine ⟨r, rfl, ?_⟩
        have hcont : passed.contains r = true := by
          cases hcb : passed.contains r with
          | true => rfl
          | false => rw [hcb] at hrem; simp at hrem
        exact List.mem_of_elem_eq_true hcont
    · intro li hli r hattr hr
      refine List.mem_filter.2 ⟨hli, ?_⟩
      simp [liRemovedV4, hattr, hr]
    · intro it hit r hattr hr
      refine List.mem_filter.2 ⟨hit, ?_⟩
      simp [rdfItemRemoved, hattr, hr]
  · intro passed removed root h
    rw [feedFilterV2_rdf passed removed root h, seqLisOf_rdfFilter]

/-! Concrete RDF document for C6. -/

def liC6 : XmlTree := XmlTree.elem rdfLiTag [(rdfResourceAttr, "L1")] none []
def sqC6 : XmlTree := XmlTree.elem rdfSeqTag [] none [liC6]
def itsC6 : XmlTree := XmlTree.elem rss1ItemsTag [] none [sqC6]
def chC6 : XmlTree := XmlTree.elem rss1ChannelTag [] none [itsC6]
def rdfDocC6 : XmlTree := XmlTree.elem rdfRootTag [] none [chC6]

/-- C6 counterexample: an RDF document whose Seq holds an `li` with resource
"L1" while the PASS set is empty and the v2 REJECT-link set is also empty
(e.g. the oracle stage was skipped, so the entry's link landed in neither
set).  The claim requires the `li` to be removed, since "L1" is not in
PASS; v2 leaves the document — including that `li` — completely unchanged,
because its removal test is membership in `removed_links`. -/
theorem c6_counterexample :
    feedFilterV2 [] [] rdfDocC6 = rdfDocC6 ∧
    seqLisOf rdfDocC6 = [liC6] ∧
    liC6.attr rdfResourceAttr = some "L1" ∧
    ¬ ("L1" ∈ ([] : List String)) := by
  refine ⟨rfl, rfl, rfl, by decide⟩

/-- Witness for `c6_rdf_seq_consistency` on the concrete document. -/
theorem c6_witness :
    (∃ r, liC6.attr rdfResourceAttr = some r ∧ r ∈ ["L1"]) ∧
    seqLisOf (feedFilterV2 [] ["L1"] rdfDocC6) =
      (seqLisOf rdfDocC6).filter (fun li => !(liRemovedV2 ["L1"] li)) :=
  ⟨(c6_rdf_seq_consistency.1 ["L1"] rdfDocC6 rfl).1 liC6
      (show liC6 ∈ ([liC6] : List XmlTree) from List.mem_singleton.mpr rfl),
   c6_rdf_seq_consistency.2 [] ["L1"] rdfDocC6 rfl⟩

/-- The Feed Filter never changes the root tag. -/
theorem feedFilterV4_tag (passed : List String) (root : XmlTree) :
    (feedFilterV4 passed root).tag = root.tag := by
  unfold feedFilterV4 rssFilter atomFilter rdfFilter
  split_ifs <;> simp [XmlTree.tag_withChildren]

/-- The plain-RSS branch is idempotent. -/
theorem rssFilter_idem (passed : List String) (root : XmlTree) :
    rssFilter passed (rssFilter passed root) = rssFilter passed root := by
  unfold rssFilter
  rw [XmlTree.withChildren_withChildren, XmlTree.children_withChildren,
    applyFirst_comp "channel" _ (fun t => XmlTree.tag_withChildren t _)]
  exact congrArg root.withChildren (applyFirst_congr "channel" _ _
    (fun t => by
      rw [XmlTree.withChildren_withChildren, XmlTree.children_withChildren,
        filter_idem]) root.children)

/-- The Atom branch is idempotent. -/
theorem atomFilter_idem (passed : List String) (root : XmlTree) :
    atomFilter passed (atomFilter passed root) = atomFilter passed root := by
  unfold atomFilter
  rw [XmlTree.withChildren_withChildren, XmlTree.children_withChildren,
    filter_idem]

/-- Updating one channel's Seq list twice is the same as once. -/
theorem channelSeqUpdate_idem (lc : XmlTree → Bool) (ch : XmlTree) :
    channelSeqUpdate lc (channelSeqUpdate lc ch) = channelSeqUpdate lc ch := by
  unfold channelSeqUpdate
  rw [XmlTree.withChildren_withChildren, XmlTree.children_withChildren,
    applyFirst_comp rss1ItemsTag _ (fun t => XmlTree.tag_withChildren t _)]
  refine congrArg ch.withChildren (applyFirst_congr rss1ItemsTag _ _
    (fun its => ?_) ch.children)
  rw [XmlTree.withChildren_withChildren, XmlTree.children_withChildren,
    applyFirst_comp rdfSeqTag (seqFilter lc) (fun t => XmlTree.tag_withChildren t _)]
  refine congrArg its.withChildren (applyFirst_congr rdfSeqTag _ _
    (fun sq => ?_) its.children)
  unfold seqFilter
  rw [XmlTree.withChildren_withChildren, XmlTree.children_withChildren,
    filter_idem]

/-- The RDF branch is idempotent when the item condition only reads the
element's tag and attributes (as the link-based conditions do). -/
theorem rdfFilter_idem (ic lc : XmlTree → Bool)
    (hi : ∀ (t : XmlTree) (cs : List XmlTree), ic (t.withChildren cs) = ic t)
    (root : XmlTree) :
    rdfFilter ic lc (rdfFilter ic lc root) = rdfFilter ic lc root := by
  have hkeep : ∀ c, (!((if c.tag = rss1ChannelTag then channelSeqUpdate lc c
      else c).tag == rss1ItemTag &&
        ic (if c.tag = rss1ChannelTag then channelSeqUpdate lc c else c))) =
      (!(c.tag == rss1ItemTag && ic c)) := by
    intro c
    by_cases hch : c.tag = rss1ChannelTag
    · rw [if_pos hch]
      unfold channelSeqUpdate
      rw [XmlTree.tag_withChildren, hi]
    · rw [if_neg hch]
  unfold rdfFilter
  rw [XmlTree.withChildren_withChildren, XmlTree.children_withChildren]
  refine congrArg root.withChildren ?_
  rw [filter_map_comm _ _ hkeep, filter_idem, List.map_map]
  refine mapCongrMem _ _ _ (fun c _ => ?_)
  show (if (if c.tag = rss1ChannelTag then channelSeqUpdate lc c else c).tag =
      rss1ChannelTag then
        channelSeqUpdate lc (if c.tag = rss1ChannelTag then channelSeqUpdate lc c
          else c)
      else (if c.tag = rss1ChannelTag then channelSeqUpdate lc c else c)) =
    (if c.tag = rss1ChannelTag then channelSeqUpdate lc c else c)
  by_cases hch : c.tag = rss1ChannelTag
  · rw [if_pos hch]
    have htag : (channelSeqUpdate lc c).tag = rss1ChannelTag := by
      unfold channelSeqUpdate
      rw [XmlTree.tag_withChildren]
      exact hch
    rw [if_pos htag, channelSeqUpdate_idem]
  · rw [if_neg hch, if_neg hch]

/-- C7.  The v4 Feed Filter is idempotent: applying it to its own output
with the same PASS set changes nothing — no further removals and no change
to unrelated siblings.  The serialized bytes are a function of the tree
(encoding, declaration and pretty-printing are fixed), so equal trees give
byte-identical output. -/
theorem c7_feed_filter_idempotent (passed : List String) (root : XmlTree) :
    feedFilterV4 passed (feedFilterV4 passed root) = feedFilterV4 passed root := by
  by_cases h1 : root.tag = "rss"
  · have e1 : feedFilterV4 passed root = rssFilter passed root := by
      unfold feedFilterV4; rw [if_pos h1]
    have h2 : (rssFilter passed root).tag = "rss" := by
      unfold rssFilter; rw [XmlTree.tag_withChildren]; exact h1
    rw [e1]
    have e2 : feedFilterV4 passed (rssFilter passed root) =
        rssFilter passed (rssFilter passed root) := by
      unfold feedFilterV4; rw [if_pos h2]
    rw [e2, rssFilter_idem]
  · by_cases hA : root.tag = atomFeedTag
    · have e1 : feedFilterV4 passed root = atomFilter passed root := by
        unfold feedFilterV4; rw [if_neg h1, if_pos hA]
      have h2 : (atomFilter passed root).tag = atomFeedTag := by
        unfold atomFilter; rw [XmlTree.tag_withChildren]; exact hA
      have h2' : ¬((atomFilter passed root).tag = "rss") := by
        rw [h2]; decide
      rw [e1]
      have e2 : feedFilterV4 passed (atomFilter passed root) =
          atomFilter passed (atomFilter passed root) := by
        unfold feedFilterV4; rw [if_neg h2', if_pos h2]
      rw [e2, atomFilter_idem]
    · by_cases hR : root.tag = rdfRootTag
      · have e1 := feedFilterV4_rdf passed root hR
        have h2 : (rdfFilter (rdfItemRemoved passed) (liRemovedV4 passed)
            root).tag = rdfRootTag := by
          unfold rdfFilter; rw [XmlTree.tag_withChildren]; exact hR
        rw [e1, feedFilterV4_rdf passed _ h2,
          rdfFilter_idem _ _ (fun t cs => by
            unfold rdfItemRemoved
            rw [XmlTree.attr_withChildren])]
      · have e1 : feedFilterV4 passed root = root := by
          unfold feedFilterV4; rw [if_neg h1, if_neg hA, if_neg hR]
        rw [e1, e1]

/-- C8.  For a parsed document whose root is none of the three recognized
dialect roots, both Feed Filters return the document unchanged (they only
emit a console diagnostic): no element is removed and the serialized output
carries every entry of the input unchanged. -/
theorem c8_unknown_root (passed removed : List String) (root : XmlTree)
    (h1 : root.tag ≠ "rss") (h2 : root.tag ≠ atomFeedTag)
    (h3 : root.tag ≠ rdfRootTag) :
    feedFilterV4 passed root = root ∧ feedFilterV2 passed removed root = root := by
  unfold feedFilterV4 feedFilterV2
  rw [if_neg h1, if_neg h2, if_neg h3, if_neg h1, if_neg h2, if_neg h3]
  exact ⟨rfl, rfl⟩

/-- Witness for `c8_unknown_root` on a document with root tag "x". -/
theorem c8_witness :
    feedFilterV4 ["a"] docX = docX ∧ feedFilterV2 ["a"] [] docX = docX :=
  c8_unknown_root ["a"] [] docX (by decide) (by decide) (by decide)

/-! Concrete plain-RSS document for C9. -/

def linkElA : XmlTree := XmlTree.elem "link" [] (some "http://e/a") []
def itemA : XmlTree := XmlTree.elem "item" [] none [linkElA]
def linkElP : XmlTree := XmlTree.elem "link" [] (some "http://e/p") []
def itemP : XmlTree := XmlTree.elem "item" [] none [linkElP]
def chR : XmlTree := XmlTree.elem "channel" [] none [itemA, itemP]
def docRss : XmlTree := XmlTree.elem "rss" [] none [chR]

/-- C9.  With an unconfigured oracle client (`current_model` None) the
Gemini stage is skipped entirely: the pipeline returns normally with both
gemini lists empty and the session unchanged, the PASS set is exactly the
keyword-passed links; every pending (UNDECIDED) entry is in none of the
four returned lists; and in the plain-RSS dialect every item that survives
filtering carries a link belonging to the PASS set — so an item whose link
is a pending entry's link (absent from PASS) is removed, with no failure
signaled. -/
theorem c9_unconfigured_skip :
    ∀ (env : OracleEnv) (b strict : Bool) (entries : List Entry) (doc : XmlTree),
      (filterRssForJournal env ⟨none, b⟩ strict entries doc) =
        (V4Result.normal
          ⟨feedFilterV4
              (((classifyV4 (v4Blacklist strict) (v4Whitelist strict) entries).1 ++
                []).map Entry.link) doc,
            (classifyV4 (v4Blacklist strict) (v4Whitelist strict) entries).1, [],
            (classifyV4 (v4Blacklist strict) (v4Whitelist strict) entries).2.1, []⟩,
         ⟨none, b⟩) ∧
      (∀ e ∈ (classifyV4 (v4Blacklist strict) (v4Whitelist strict) entries).2.2,
        e ∉ (classifyV4 (v4Blacklist strict) (v4Whitelist strict) entries).1 ∧
        e ∉ (classifyV4 (v4Blacklist strict) (v4Whitelist strict) entries).2.1) ∧
      (doc.tag = "rss" →
        ∀ it ∈ rssItemsOf (feedFilterV4
            (((classifyV4 (v4Blacklist strict) (v4Whitelist strict) entries).1 ++
              []).map Entry.link) doc),
          ∀ le, firstWithTag "link" it.children = some le →
            ∃ t, le.text = some t ∧
              t ∈ ((classifyV4 (v4Blacklist strict) (v4Whitelist strict)
                entries).1 ++ []).map Entry.link) := by
  intro env b strict entries doc
  refine ⟨rfl, ?_, ?_⟩
  · intro e he
    have hv := (classifyV4_mem (v4Blacklist strict) (v4Whitelist strict) entries e).2.2 he
    constructor
    · intro hin
      have h1 := (classifyV4_mem (v4Blacklist strict) (v4Whitelist strict) entries e).1 hin
      rw [hv] at h1
      cases h1
    · intro hin
      have h1 := (classifyV4_mem (v4Blacklist strict) (v4Whitelist strict)
        entries e).2.1 hin
      rw [hv] at h1
      cases h1
  · intro hdoc it hit le hle
    rw [rssItemsOf_feedFilterV4 _ _ hdoc] at hit
    obtain ⟨hmem, hcond⟩ := List.mem_filter.1 hit
    have hrem : rssItemRemoved
        (((classifyV4 (v4Blacklist strict) (v4Whitelist strict) entries).1 ++
          []).map Entry.link) it = false := by
      cases hb : rssItemRemoved (((classifyV4 (v4Blacklist strict)
          (v4Whitelist strict) entries).1 ++ []).map Entry.link) it with
      | false => rfl
      | true => rw [hb] at hcond; cases hcond
    unfold rssItemRemoved at hrem
    rw [hle] at hrem
    dsimp only at hrem
    cases htext : le.text with
    | none => rw [htext] at hrem; dsimp only at hrem; cases hrem
    | some t =>
      rw [htext] at hrem
      dsimp only at hrem
      refine ⟨t, rfl, ?_⟩
      have hcont : (((classifyV4 (v4Blacklist strict) (v4Whitelist strict)
          entries).1 ++ []).map Entry.link).contains t = true := by
        cases hcb : (((classifyV4 (v4Blacklist strict) (v4Whitelist strict)
            entries).1 ++ []).map Entry.link).contains t with
        | true => rfl
        | false => rw [hcb] at hrem; simp at hrem
      exact List.mem_of_elem_eq_true hcont

/-- Witness for `c9_unconfigured_skip` on a concrete two-item feed: the
keyword-passed item survives, and the surviving item's link is in PASS. -/
theorem c9_witness :
    (filterRssForJournal envFail ⟨none, true⟩ false [eSuper, ePend] docRss) =
      (V4Result.normal
        ⟨feedFilterV4
            (((classifyV4 (v4Blacklist false) (v4Whitelist false)
              [eSuper, ePend]).1 ++ []).map Entry.link) docRss,
          (classifyV4 (v4Blacklist false) (v4Whitelist false) [eSuper, ePend]).1, [],
          (classifyV4 (v4Blacklist false) (v4Whitelist false) [eSuper, ePend]).2.1,
          []⟩,
       ⟨none, true⟩) ∧
    (∃ t, linkElA.text = some t ∧
      t ∈ ((classifyV4 (v4Blacklist false) (v4Whitelist false)
        [eSuper, ePend]).1 ++ []).map Entry.link) :=
  ⟨(c9_unconfigured_skip envFail true false [eSuper, ePend] docRss).1,
   (c9_unconfigured_skip envFail true false [eSuper, ePend] docRss).2.2 rfl itemA
     (show itemA ∈ ([itemA] : List XmlTree) from List.mem_singleton.mpr rfl)
     linkElA rfl⟩

/-- The Gemini stage never changes the session once off the primary. -/
theorem geminiStageV4_frozen (env : OracleEnv) (sess : SessionState)
    (pending : List Entry) (h : sess.usingPrimary = false) :
    (geminiStageV4 env sess pending).sess = sess := by
  unfold geminiStageV4
  split
  · dsimp only
    split
    · exact (runLoop_frozen env pending 5 (initLoopState sess) h).1
    · exact (runLoop_frozen env pending 5 (initLoopState sess) h).1
  · rfl

/-- The per-journal pipeline returns the session unchanged once off the
primary. -/
theorem filterRssForJournal_frozen (env : OracleEnv) (sess : SessionState)
    (strict : Bool) (entries : List Entry) (doc : XmlTree)
    (h : sess.usingPrimary = false) :
    (filterRssForJournal env sess strict entries doc).2 = sess := by
  unfold filterRssForJournal
  dsimp only
  split
  · exact geminiStageV4_frozen env sess _ h
  · exact geminiStageV4_frozen env sess _ h

/-- The whole multi-journal run preserves a session that is off the
primary. -/
theorem runJournals_frozen :
    ∀ (js : List JournalJob) (sess : SessionState), sess.usingPrimary = false →
      (runJournals js sess).2 = sess := by
  intro js
  induction js with
  | nil => intro sess _; rfl
  | cons j rest ih =>
    intro sess h
    unfold runJournals
    dsimp only
    cases hr : (filterRssForJournal j.env sess j.strictRules j.entries j.doc).1 with
    | raisedErr l =>
      dsimp only
      exact filterRssForJournal_frozen j.env sess j.strictRules j.entries j.doc h
    | normal o =>
      dsimp only
      rw [filterRssForJournal_frozen j.env sess j.strictRules j.entries j.doc h]
      exact ih sess h

/-- Off-primary exhaustion: with a fixed session and every attempt failing,
the loop runs its fresh budget of exactly `maxAttempts` attempts and exits
unsuccessful with the session intact. -/
theorem runLoop_frozen_exhaust (env : OracleEnv) (pending : List Entry)
    (m : GeminiModelId) (hall : ∀ i, attemptFails (env.outcome i m) = true) :
    ∀ (fuel : Nat) (s : LoopState), s.sess = ⟨some m, false⟩ →
      s.apiSuccess = false → s.attempt ≤ s.maxAttempts →
      s.maxAttempts - s.attempt ≤ fuel →
      (runLoop env pending fuel s).attempt = s.maxAttempts ∧
      (runLoop env pending fuel s).maxAttempts = s.maxAttempts ∧
      (runLoop env pending fuel s).apiSuccess = false ∧
      (runLoop env pending fuel s).sess = s.sess := by
  intro fuel
  induction fuel with
  | zero =>
    intro s hs hapi hle hfuel
    rw [runLoop_zero]
    exact ⟨by omega, rfl, hapi, rfl⟩
  | succ n ih =>
    intro s hs hapi hle hfuel
    rw [runLoop_step]
    by_cases hc : s.attempt < s.maxAttempts
    · have hcond : (s.attempt < s.maxAttempts && !s.apiSuccess) = true := by
        rw [hapi]; simp [hc]
      rw [if_pos hcond]
      have hm : s.sess.model = some m := by rw [hs]
      have hup : s.sess.usingPrimary = false := by rw [hs]
      have hfz := attemptOnce_frozen env pending s hup
      have hfl := attemptOnce_fail env pending s m hm (hall s.attempt)
      have hnext := ih (attemptOnce env pending s)
        (by rw [hfz.1, hs]) (by rw [hfl.2, hapi])
        (by rw [hfl.1, hfz.2]; omega) (by rw [hfl.1, hfz.2]; omega)
      refine ⟨?_, ?_, hnext.2.2.1, ?_⟩
      · rw [hnext.1, hfz.2]
      · rw [hnext.2.1, hfz.2]
      · rw [hnext.2.2.2, hfz.1]
    · have hcond : ¬((s.attempt < s.maxAttempts && !s.apiSuccess) = true) := by
        simp [hc]
      rw [if_neg hcond]
      exact ⟨by omega, rfl, hapi, rfl⟩

/-- C10.  In the v4 multi-journal run, the model identity is run-scoped
while the attempt budget is source-scoped.  Once the session has left the
primary model, the rest of the run never changes it: the per-journal
pipeline and the whole remaining run return the session exactly as given.
Each source's Gemini stage nevertheless starts from a fresh local budget:
on the fallback with every attempt failing, the loop makes exactly 3
attempts (`max_attempts` re-initialized to 3, no extra attempt off the
primary) and the stage raises. -/
theorem c10_session_scoping :
    (∀ js : List JournalJob,
      (runJournals js ⟨some GeminiModelId.fallback, false⟩).2 =
        ⟨some GeminiModelId.fallback, false⟩) ∧
    (∀ (env : OracleEnv) (sess : SessionState) (strict : Bool)
        (entries : List Entry) (doc : XmlTree), sess.usingPrimary = false →
      (filterRssForJournal env sess strict entries doc).2 = sess) ∧
    (∀ (env : OracleEnv) (pending : List Entry),
      (∀ i, attemptFails (env.outcome i GeminiModelId.fallback) = true) →
      (runLoop env pending 5
        (initLoopState ⟨some GeminiModelId.fallback, false⟩)).attempt = 3 ∧
      (runLoop env pending 5
        (initLoopState ⟨some GeminiModelId.fallback, false⟩)).maxAttempts = 3 ∧
      (runLoop env pending 5
        (initLoopState ⟨some GeminiModelId.fallback, false⟩)).apiSuccess = false) ∧
    (∀ (env : OracleEnv) (p : Entry) (ps : List Entry),
      (∀ i, attemptFails (env.outcome i GeminiModelId.fallback) = true) →
      (geminiStageV4 env ⟨some GeminiModelId.fallback, false⟩ (p :: ps)).raised =
        true) := by
  refine ⟨fun js => runJournals_frozen js _ rfl,
    fun env sess strict entries doc h =>
      filterRssForJournal_frozen env sess strict entries doc h, ?_, ?_⟩
  · intro env pending hall
    have h := runLoop_frozen_exhaust env pending GeminiModelId.fallback hall 5
      (initLoopState ⟨some GeminiModelId.fallback, false⟩) rfl rfl
      (by decide) (by decide)
    exact ⟨h.1, h.2.1, h.2.2.1⟩
  · intro env p ps hall
    have h := runLoop_frozen_exhaust env (p :: ps) GeminiModelId.fallback hall 5
      (initLoopState ⟨some GeminiModelId.fallback, false⟩) rfl rfl
      (by decide) (by decide)
    unfold geminiStageV4
    rw [if_pos (show ((some GeminiModelId.fallback).isSome &&
      !(p :: ps).isEmpty) = true from rfl)]
    dsimp only
    rw [h.2.2.1]
    rfl

/-- Witness for `c10_session_scoping` at concrete inputs. -/
theorem c10_witness :
    (runJournals [] ⟨some GeminiModelId.fallback, false⟩).2 =
      ⟨some GeminiModelId.fallback, false⟩ ∧
    (runLoop envFail [ePend] 5
      (initLoopState ⟨some GeminiModelId.fallback, false⟩)).attempt = 3 ∧
    (geminiStageV4 envFail ⟨some GeminiModelId.fallback, false⟩ [ePend]).raised =
      true :=
  ⟨c10_session_scoping.1 [],
   (c10_session_scoping.2.2.1 envFail [ePend] (fun _ => rfl)).1,
   c10_session_scoping.2.2.2 envFail ePend [] (fun _ => rfl)⟩

end RssFilter
